import Mathlib

/-!
Shallow embedding of `src/te/schedule/schedule_postproc_rewrite_for_tensor_core.cc`,
the TVM schedule post-processing pass that rewrites a scheduled tensor program
for NVIDIA tensor cores.  The pass is a four-stage pipeline: `MMAMatcher`,
`ScheduleAnalyser`, `BufferAnalyser`, `TensorCoreIRMutator`, driven by
`SchedulePostProcRewriteForTensorCore`.

Modelling conventions:
* IR node objects are Lean values; object identity (the C++ code keys several
  maps by raw pointers) is modelled by explicit id fields (`Tensor.opId`,
  store ids, variable ids) or by structural keys where the code's behaviour
  only depends on the value.
* C++ `std::unordered_map` is modelled by association lists; `insert` keeps
  the first binding for a key (as `unordered_map::insert` does), `operator[]`
  assignment replaces it.  Iteration order is modelled as insertion order.
* Places where the C++ code has undefined behaviour (a null-pointer
  dereference, dereferencing the `end()` iterator of a map) or aborts via
  `ICHECK`/`LOG(FATAL)` are modelled as `Option.none`.
* The external arithmetic simplifier (`analyzer_.Simplify`), which the spec
  places out of scope, is modelled as the identity on index expressions.
* Machine integers (`int`, `int64_t`) are modelled as `Int`, with C++
  truncating division/remainder modelled by `Int.tdiv`/`Int.tmod`.
-/

/-- Element data types relevant to the pass (`tvm::DataType`). -/
inductive DType where
  | f16 | f32 | i8 | u8 | i4 | u4 | i1 | i32 | handle | unknown
deriving DecidableEq, Repr

/-- A `te::Tensor`: identity key for a producer.  `name` models
`Tensor::GetNameHint()` and `opName` models `tensor->op->name`. -/
structure Tensor where
  opId : Nat
  name : String
  opName : String
  dtype : DType
deriving DecidableEq, Repr

/-- `tir::PrimExpr`, restricted to the node kinds the pass consumes and
produces.  `Reduce` keeps the combiner results and the source expressions,
the only fields the pass reads. -/
inductive PrimExpr where
  | IntImm (dtype : DType) (value : Int)
  | FloatImm (dtype : DType) (value : Nat)
  | StringImm (value : String)
  | Var (id : Nat) (name : String) (dtype : DType)
  | Cast (dtype : DType) (value : PrimExpr)
  | Add (a b : PrimExpr)
  | Sub (a b : PrimExpr)
  | Mul (a b : PrimExpr)
  | Div (a b : PrimExpr)
  | FloorMod (a b : PrimExpr)
  | ProducerLoad (t : Tensor) (indices : List PrimExpr)
  | Call (dtype : DType) (op : String) (args : List PrimExpr)
  | Reduce (combinerResults : List PrimExpr) (source : List PrimExpr)

/-- The `dtype` of an expression node (used for `make_const(e.dtype(), c)`). -/
def exprDType : PrimExpr → DType
  | .IntImm d _ => d
  | .FloatImm d _ => d
  | .StringImm _ => .handle
  | .Var _ _ d => d
  | .Cast d _ => d
  | .Add a _ => exprDType a
  | .Sub a _ => exprDType a
  | .Mul a _ => exprDType a
  | .Div a _ => exprDType a
  | .FloorMod a _ => exprDType a
  | .ProducerLoad t _ => t.dtype
  | .Call d _ _ => d
  | .Reduce _ _ => .unknown

mutual

/-- Structural equality on expressions (stands in for derived decidable
equality, which Lean does not generate for this nested inductive). -/
def peq : PrimExpr → PrimExpr → Bool
  | .IntImm d v, .IntImm d' v' => d = d' && v = v'
  | .FloatImm d v, .FloatImm d' v' => d = d' && v = v'
  | .StringImm s, .StringImm s' => s = s'
  | .Var i n d, .Var i' n' d' => i = i' && n = n' && d = d'
  | .Cast d e, .Cast d' e' => d = d' && peq e e'
  | .Add a b, .Add a' b' => peq a a' && peq b b'
  | .Sub a b, .Sub a' b' => peq a a' && peq b b'
  | .Mul a b, .Mul a' b' => peq a a' && peq b b'
  | .Div a b, .Div a' b' => peq a a' && peq b b'
  | .FloorMod a b, .FloorMod a' b' => peq a a' && peq b b'
  | .ProducerLoad t ix, .ProducerLoad t' ix' => t = t' && peqList ix ix'
  | .Call d o a, .Call d' o' a' => d = d' && o = o' && peqList a a'
  | .Reduce c s, .Reduce c' s' => peqList c c' && peqList s s'
  | _, _ => false

def peqList : List PrimExpr → List PrimExpr → Bool
  | [], [] => true
  | e :: r, e' :: r' => peq e e' && peqList r r'
  | _, _ => false

end

/-- A realize/buffer bound (`tvm::Range`): min and extent. -/
structure RangeE where
  min : PrimExpr
  extent : PrimExpr

/-- The synthesized fragment buffer descriptor built by
`TensorCoreIRMutator::add_buffer_bind_scope_` (a `tir::Buffer`). -/
structure BufDescr where
  data : PrimExpr
  name : String
  scope : String
  dtype : DType
  strides : List PrimExpr
  shape : List PrimExpr
  dataAlignment : Int
  elemOffset : PrimExpr
  offsetFactor : Int

/-- The `node` reference carried by an `AttrStmt`.  `tensor`, `op` and
`iterVar` model the object kinds the pass inspects; `bufArr` models the
fresh two-element array `{buffer, tensor}` created for `buffer_bind_scope`
attributes; `other` is any other object. -/
inductive AttrObj where
  | tensor (t : Tensor)
  | op (id : Nat) (name : String)
  | iterVar (varId : Nat) (varName : String)
  | bufArr (buf : BufDescr) (t : Tensor)
  | other (id : Nat)

/-- Object-identity key for `storage_scope_` maps (keyed by raw `Object*`
in the C++ code).  A fresh `bufArr` array has no stable key: it is a new
object, distinct from every key ever looked up, so it is given no key and
insertions under it are dropped (observationally equivalent: no lookup in
the pass can ever hit it). -/
inductive ObjKey where
  | tensor (t : Tensor)
  | op (id : Nat)
  | iter (id : Nat)
  | obj (id : Nat)
deriving DecidableEq, Repr

/-- The identity key of an attribute's `node` object. -/
def AttrObj.key : AttrObj → Option ObjKey
  | .tensor t => some (.tensor t)
  | .op i _ => some (.op i)
  | .iterVar i _ => some (.iter i)
  | .bufArr _ _ => none
  | .other i => some (.obj i)

/-- `tir::Stmt`, restricted to the node kinds the pass consumes and
produces.  `ProducerStore` carries an id modelling the node's object
identity (the code keys `mma_sync_`, `frag_load_`, `frag_store_` by store
node pointers).  `For` keeps kind, thread binding and annotation fields as
opaque tokens; `Seq` is a two-element sequence node. -/
inductive Stmt where
  | AttrStmt (node : AttrObj) (key : String) (value : PrimExpr) (body : Stmt)
  | ProducerRealize (t : Tensor) (bounds : List RangeE) (condition : PrimExpr) (body : Stmt)
  | ProducerStore (sid : Nat) (t : Tensor) (value : PrimExpr) (indices : List PrimExpr)
  | For (varId : Nat) (varName : String) (min extent : PrimExpr) (kind : Nat)
      (threadBinding : Option Nat) (annots : Nat) (body : Stmt)
  | Seq (a b : Stmt)
  | Evaluate (e : PrimExpr)

/-- Association-list lookup (`std::unordered_map::find`). -/
def lookupT {α β : Type} [DecidableEq α] (m : List (α × β)) (k : α) : Option β :=
  match m with
  | [] => none
  | (k0, v0) :: r => if k0 = k then some v0 else lookupT r k

/-- `std::unordered_map::operator[] =`: replace the binding if present,
otherwise add it. -/
def setT {α β : Type} [DecidableEq α] (m : List (α × β)) (k : α) (v : β) : List (α × β) :=
  match m with
  | [] => [(k, v)]
  | (k0, v0) :: r => if k0 = k then (k, v) :: r else (k0, v0) :: setT r k v

/-- `std::unordered_map::insert`: keep the existing binding if present. -/
def insKeep {α β : Type} [DecidableEq α] (m : List (α × β)) (k : α) (v : β) : List (α × β) :=
  if (lookupT m k).isSome then m else m ++ [(k, v)]

/-- Lookup in a map keyed by expression node (`buf_name_`). -/
def lookupE {β : Type} (m : List (PrimExpr × β)) (k : PrimExpr) : Option β :=
  match m with
  | [] => none
  | (k0, v0) :: r => if peq k0 k then some v0 else lookupE r k

/-- `insert` into a map keyed by expression node. -/
def insKeepE {β : Type} (m : List (PrimExpr × β)) (k : PrimExpr) (v : β) : List (PrimExpr × β) :=
  if (lookupE m k).isSome then m else m ++ [(k, v)]

/-- `std::unordered_set<std::string>::insert`. -/
def insSet (m : List String) (s : String) : List String :=
  if s ∈ m then m else m ++ [s]

/-- `simplify_name`: everything before the first dot (the whole name when
it has no dot). -/
def simplifyName (input : String) : String :=
  if '.' ∈ input.toList then String.mk (input.toList.takeWhile (fun c => c ≠ '.'))
  else input

/-- `unpack_type_cast`: the operand of a cast to `targetType`; a non-cast is
returned unchanged; a cast to a different dtype yields the empty
`PrimExpr()` (modelled as `none`). -/
def unpackTypeCast (input : PrimExpr) (targetType : DType) : Option PrimExpr :=
  match input with
  | .Cast d v => if d = targetType then some v else none
  | e => some e

/-- `PrimExpr::as<CallNode>()`. -/
def exprAsCall : PrimExpr → Option PrimExpr
  | .Call d o a => some (.Call d o a)
  | _ => none

/-- `PrimExpr::as<MulNode>()` applied to an optional (possibly empty)
expression: yields the factors. -/
def exprAsMul : Option PrimExpr → Option (PrimExpr × PrimExpr)
  | some (.Mul a b) => some (a, b)
  | _ => none

/-- A tile `(m, n, k)`; `-1` means unassigned. -/
structure Tile where
  m : Int := -1
  n : Int := -1
  k : Int := -1
deriving DecidableEq, Repr

/-- An externally provided `tir::Buffer` (from the `extern_buffer` map). -/
structure ExtBuffer where
  name : String
  dtype : DType
  shape : List PrimExpr
  strides : List PrimExpr

/-- `MMAMatcher::BufferInfo`. -/
structure MBufInfo where
  name : String
  dtype : DType
  external : Bool := false
  released : Bool := false
deriving DecidableEq, Repr

/-- `MMAMatcher::BufferInfo::same_as`. -/
def mbufSameAs (a b : MBufInfo) : Bool :=
  a.dtype = b.dtype && a.name = b.name && a.external = b.external && a.released = b.released

/-- One `mma_sync_` record: the operand triple `{load_a_expr, load_b_expr,
add->a}` keyed by the matched store node (`sid`). -/
structure MRec where
  sid : Nat
  a : PrimExpr
  b : PrimExpr
  c : PrimExpr

/-- The state of `MMAMatcher`. -/
structure MState where
  bufMap : List (Tensor × MBufInfo)
  storageScope : List (ObjKey × String)
  mmaSync : List MRec
  bufName : List (PrimExpr × String)
  fragReg : List String
  matched : Bool
  tcOn : Bool

/-- `mma_sync_.insert`: keep the existing record for a store node. -/
def insKeepRec (m : List MRec) (r : MRec) : List MRec :=
  if m.any (fun r0 => r0.sid = r.sid) then m else m ++ [r]

/-- The `MMAMatcher` constructor: seed `buf_map_` from the extern buffers. -/
def matcherInit (ext : List (Tensor × ExtBuffer)) : MState :=
  { bufMap := ext.foldl
      (fun m kv => setT m kv.1
        { name := kv.2.name, dtype := kv.2.dtype, external := true, released := false })
      [],
    storageScope := [], mmaSync := [], bufName := [], fragReg := [],
    matched := false, tcOn := false }

/-- `MMAMatcher::check_local_buffer_` on a non-null load node: `none` when
any of the checks fail (scope of the tensor object is not recorded or not
"local", no buffer entry, released).  Note the C++ code keys the scope
lookup by the `TensorNode` pointer (`tensor.get()`), so only a
`realize_scope` attribute whose `node` is the tensor itself can satisfy it. -/
def checkLocal (st : MState) (t : Tensor) : Option MBufInfo :=
  match lookupT st.storageScope (.tensor t) with
  | none => none
  | some sc =>
    if sc ≠ "local" then none
    else match lookupT st.bufMap t with
      | none => none
      | some bi => if bi.released then none else some bi

/-- Mark a matcher buffer entry released (`buf_map_[key].released = true`). -/
def markReleased (m : List (Tensor × MBufInfo)) (t : Tensor) : List (Tensor × MBufInfo) :=
  match lookupT m t with
  | some bi => setT m t { bi with released := true }
  | none => setT m t { name := "", dtype := .unknown, external := false, released := true }

/-- `MMAMatcher::mma_sync_match_` as one step of the store visitor: `some st`
with `matched := true` and the recorded tables on success, `some st`
unchanged when the pattern does not match, `none` where the C++ code
dereferences a null node pointer (a non-load operand is cast and then
dereferenced without a null check). -/
def mmaSyncMatchStep (st : MState) (sid : Nat) (value : PrimExpr) (storeBuf : MBufInfo) :
    Option MState :=
  match value with
  | .Add addA addB =>
    match addA with
    | .ProducerLoad tc icx =>
      match checkLocal st tc with
      | none => some st
      | some bufC =>
        if !mbufSameAs bufC storeBuf then some st
        else if !(bufC.dtype = .f32 || bufC.dtype = .i32) then some st
        else match exprAsMul (unpackTypeCast addB bufC.dtype) with
          | none => some st
          | some (mulA, mulB) =>
            match unpackTypeCast mulA bufC.dtype with
            | some (.ProducerLoad ta ixa) =>
              match checkLocal st ta with
              | none => some st
              | some bufA =>
                if !(bufA.dtype = .f16 || bufA.dtype = .i8 || bufA.dtype = .u8 ||
                     bufA.dtype = .i4 || bufA.dtype = .u4 || bufA.dtype = .i1) then some st
                else match unpackTypeCast mulB bufC.dtype with
                  | some (.ProducerLoad tb ixb) =>
                    match checkLocal st tb with
                    | none => some st
                    | some bufB =>
                      -- NB: the last two arms test buffer_a's dtype, exactly as the
                      -- source does (lines 208-212 of the .cc file).
                      if !(bufB.dtype = .f16 || bufB.dtype = .i8 || bufB.dtype = .u8 ||
                           bufB.dtype = .i4 || bufA.dtype = .u4 || bufA.dtype = .i1) then
                        some st
                      else
                        some { st with
                          fragReg := insSet (insSet (insSet st.fragReg bufC.name)
                            bufA.name) bufB.name,
                          bufName := insKeepE (insKeepE st.bufName
                            (.ProducerLoad ta ixa) bufA.name) (.ProducerLoad tb ixb) bufB.name,
                          mmaSync := insKeepRec st.mmaSync
                            ⟨sid, .ProducerLoad ta ixa, .ProducerLoad tb ixb,
                              .ProducerLoad tc icx⟩,
                          matched := true }
                  | _ => none
            | _ => none
    | _ => none
  | _ => some st

/-- The `MMAMatcher` traversal (a `StmtVisitor`).  `none` models undefined
behaviour (e.g. a `realize_scope` attribute whose value is not a string
immediate is dereferenced without a check). -/
def runMatcher (st : MState) : Stmt → Option MState
  | .AttrStmt node key value body =>
    if key = "pragma_tensor_core" then
      runMatcher { st with tcOn := true } body
    else if key = "realize_scope" then
      match value with
      | .StringImm s =>
        match node.key with
        | some k => runMatcher { st with storageScope := setT st.storageScope k s } body
        | none => runMatcher st body
      | _ => none
    else runMatcher st body
  | .ProducerRealize t _ _ body =>
    match lookupT st.bufMap t with
    | some bi => if !bi.external then some st else runMatcher st body
    | none =>
      let bi1 : MBufInfo := ⟨t.name, t.dtype, false, false⟩
      let st1 := { st with bufMap := setT st.bufMap t bi1 }
      match runMatcher st1 body with
      | none => none
      | some st2 => some { st2 with bufMap := markReleased st2.bufMap t }
  | .ProducerStore sid t value _ =>
    match lookupT st.bufMap t with
    | none => some st
    | some bi =>
      if bi.released then some st
      else if st.tcOn then mmaSyncMatchStep st sid value bi
      else some st
  | .For _ _ _ _ _ _ _ body => runMatcher st body
  | .Seq a b =>
    match runMatcher st a with
    | none => none
    | some st1 => runMatcher st1 b
  | .Evaluate _ => some st

/-- An `IterVar`: its underlying variable (id and name hint). -/
structure IterV where
  varId : Nat
  varName : String
deriving DecidableEq, Repr

/-- A `te::ComputeOpNode` as consumed by `ScheduleAnalyser`. -/
structure ComputeOp where
  name : String
  axis : List IterV
  reduceAxis : List IterV
  body : List PrimExpr

/-- A schedule output operation. -/
inductive Operation where
  | compute (c : ComputeOp)
  | other (id : Nat)

/-- A `te::Schedule` as consumed by the pass: its output list. -/
structure Schedule where
  outputs : List Operation

/-- `BodyVisitor` state: the recorded per-load index lists (`args_`) and the
`tensorcore_candidate_` flag. -/
structure BVState where
  args : List (String × List PrimExpr)
  candidate : Bool

mutual

/-- `BodyVisitor`, a `StmtExprVisitor` over a compute op's body.  A reduce
whose combiner is a single addition marks the candidate flag and visits
each multiplication-shaped source; every producer load encountered records
its index list under the producer's name hint. -/
def bodyVisit (st : BVState) : PrimExpr → BVState
  | .Reduce results source =>
    match results with
    | .Add _ _ :: rest =>
      if rest.length > 0 then st
      else bodyVisitSources st source
    | _ => st
  | .ProducerLoad t ix =>
    let st1 := bodyVisitList st ix
    { st1 with args := insKeep st1.args t.name ix }
  | .Cast _ e => bodyVisit st e
  | .Add a b => bodyVisit (bodyVisit st a) b
  | .Sub a b => bodyVisit (bodyVisit st a) b
  | .Mul a b => bodyVisit (bodyVisit st a) b
  | .Div a b => bodyVisit (bodyVisit st a) b
  | .FloorMod a b => bodyVisit (bodyVisit st a) b
  | .Call _ _ args => bodyVisitList st args
  | .IntImm _ _ => st
  | .FloatImm _ _ => st
  | .StringImm _ => st
  | .Var _ _ _ => st

/-- The loop over a reduce node's sources: a source that (after an optional
cast to float-32 or int-32) is a multiplication sets the candidate flag and
is visited; other sources are skipped. -/
def bodyVisitSources (st : BVState) : List PrimExpr → BVState
  | [] => st
  | s :: r =>
    if (exprAsMul (unpackTypeCast s .f32)).isNone &&
       (exprAsMul (unpackTypeCast s .i32)).isNone then
      bodyVisitSources st r
    else
      bodyVisitSources (bodyVisit { st with candidate := true } s) r

def bodyVisitList (st : BVState) : List PrimExpr → BVState
  | [] => st
  | e :: r => bodyVisitList (bodyVisit st e) r

end

/-- The matrix role tables built by `ScheduleAnalyser` (`matrix_abc_`,
`matrix_major_`), keyed by simplified tensor name. -/
structure RoleMaps where
  abc : List (String × String)
  major : List (String × String)

/-- The per-argument-list role classification of
`ScheduleAnalyser::MatrixIdentify` (lines 305-326 of the source): `none`
models `continue` (fewer than two indices, or a non-variable index);
otherwise the `(matrix_abc, major)` strings, which are empty when the last
two index variables match none of the four patterns. -/
def roleOf (rv x0 x1 : Nat) (args : List PrimExpr) : Option (String × String) :=
  if args.length < 2 then none
  else
    match args.get? (args.length - 2), args.get? (args.length - 1) with
    | some (.Var v0 _ _), some (.Var v1 _ _) =>
      if v0 = rv && v1 = x1 then some ("matrix_a", "col_major")
      else if v0 = rv && v1 = x0 then some ("matrix_b", "row_major")
      else if v0 = x1 && v1 = rv then some ("matrix_a", "row_major")
      else if v0 = x0 && v1 = rv then some ("matrix_b", "col_major")
      else some ("", "")
    | _, _ => none

/-- The loop inserting each classified argument list into the role tables. -/
def stageArgsFold (rv x0 x1 : Nat) (maps : RoleMaps) :
    List (String × List PrimExpr) → RoleMaps
  | [] => maps
  | (name, args) :: rest =>
    match roleOf rv x0 x1 args with
    | none => stageArgsFold rv x0 x1 maps rest
    | some (abc, maj) =>
      stageArgsFold rv x0 x1 ⟨insKeep maps.abc name abc, insKeep maps.major name maj⟩ rest

/-- Processing of one schedule output in `MatrixIdentify`: guard the axis
shape, run `BodyVisitor` over the body, classify every recorded argument
list, then register the output stage as accumulator / col_major. -/
def stageRoles (maps : RoleMaps) : Operation → RoleMaps
  | .other _ => maps
  | .compute c =>
    if c.axis.length < 2 || c.reduceAxis.length ≠ 1 then maps
    else
      match c.axis.get? (c.axis.length - 2), c.axis.get? (c.axis.length - 1),
            c.reduceAxis.get? 0 with
      | some ax0, some ax1, some rax =>
        let bv := c.body.foldl bodyVisit ⟨[], false⟩
        if !bv.candidate then maps
        else
          let maps1 := stageArgsFold rax.varId ax0.varId ax1.varId maps bv.args
          ⟨insKeep maps1.abc c.name "accumulator", insKeep maps1.major c.name "col_major"⟩
      | _, _, _ => maps

/-- The role-inference loop of `MatrixIdentify` over all schedule outputs. -/
def rolePhase (sched : Schedule) : RoleMaps :=
  sched.outputs.foldl stageRoles ⟨[], []⟩

/-- The consistency loop of `MatrixIdentify` over the matcher's `mma_sync_`
records.  The source casts each operand with `.as<CallNode>()` (the
operands are `ProducerLoad` nodes, so the cast yields null), calls
`buf_name_.find` on the result and dereferences the returned iterator
without comparing it to `end()`: a missed lookup is undefined behaviour,
modelled as `none`.  `some (true, recs)` is returned-true (note the early
return on the first `(matrix_a, matrix_b)` pair, which leaves the
remaining records unprocessed), `some (false, _)` is returned-false. -/
def consistencyPass (abc : List (String × String)) (bufName : List (PrimExpr × String)) :
    List MRec → Option (Bool × List MRec)
  | [] => some (true, [])
  | r :: rest =>
    match exprAsCall r.a with
    | none => none
    | some ka =>
      match lookupE bufName ka with
      | none => none
      | some n0 =>
        match exprAsCall r.b with
        | none => none
        | some kb =>
          match lookupE bufName kb with
          | none => none
          | some n1 =>
            match lookupT abc (simplifyName n0), lookupT abc (simplifyName n1) with
            | some r0, some r1 =>
              if r0 = "matrix_a" && r1 = "matrix_b" then some (true, r :: rest)
              else if r0 = "matrix_b" && r1 = "matrix_a" then
                (consistencyPass abc bufName rest).map
                  (fun p => (p.1, (⟨r.sid, r.b, r.a, r.c⟩ : MRec) :: p.2))
              else some (false, r :: rest)
            | _, _ => some (false, r :: rest)

/-- `ScheduleAnalyser::MatrixIdentify`: the role-inference phase followed by
the consistency phase over the matcher's records. -/
def matrixIdentify (m : MState) (sched : Schedule) : Option (Bool × RoleMaps × List MRec) :=
  let maps := rolePhase sched
  match consistencyPass maps.abc m.bufName m.mmaSync with
  | none => none
  | some (b, recs) => some (b, maps, recs)

/-- `BufferAnalyser::DimAlignInfo`. -/
structure DimAlignInfo where
  alignFactor : Int := 0
  alignOffset : Int := 0
deriving DecidableEq, Repr

/-- `BufferAnalyser::BufferInfo`. -/
structure BABufInfo where
  name : String
  dtype : DType
  strides : List PrimExpr
  shape : List PrimExpr
  bounds : List RangeE
  external : Bool
  released : Bool

/-- The read-only inputs of `BufferAnalyser` copied from the earlier stages:
`matrix_abc_`, `matrix_major_`, `frag_reg_`. -/
structure BACfg where
  abc : List (String × String)
  major : List (String × String)
  fragReg : List String

/-- The mutable state of `BufferAnalyser` (including the embedded
`IndexVisitor`'s `loop_scaling_` map and `scaling_factor_`). -/
structure BAState where
  bufMap : List (Tensor × BABufInfo)
  dimAlign : List (Tensor × List DimAlignInfo)
  storageScope : List (ObjKey × String)
  strides : List (String × List PrimExpr)
  fragLoad : List (Nat × PrimExpr)
  fragStore : List (Nat × PrimExpr)
  threadExtent : List (String × Int)
  loopScaling : List (Nat × Int)
  scalingFactor : Int
  warpTile : Tile
  threadTile : Tile
  warpThreadsY : Int
  invalid : Bool

/-- The `BufferAnalyser` constructor: seed `buf_map_` from extern buffers. -/
def baInit (ext : List (Tensor × ExtBuffer)) : BAState :=
  { bufMap := ext.foldl
      (fun m kv => setT m kv.1 ⟨kv.2.name, kv.2.dtype, kv.2.strides, kv.2.shape, [], true, false⟩)
      [],
    dimAlign := [], storageScope := [], strides := [], fragLoad := [], fragStore := [],
    threadExtent := [], loopScaling := [], scalingFactor := 0,
    warpTile := {}, threadTile := {}, warpThreadsY := -1, invalid := false }

/-- `BufferInfo::RelIndex`: subtract the realize mins when bounds are
recorded; `none` models the `ICHECK_EQ(bounds.size(), args.size())`. -/
def relIndex (bi : BABufInfo) (args : List PrimExpr) : Option (List PrimExpr) :=
  if bi.bounds.length ≠ 0 then
    if bi.bounds.length ≠ args.length then none
    else some (List.zipWith (fun a r => PrimExpr.Sub a r.min) args bi.bounds)
  else some args

/-- The product `1 * shape[size-1] * ... * shape[i]` as the stride loops of
the source build it (a left-nested `Mul` chain starting from the constant 1). -/
def strideProd (shape : List PrimExpr) (i : Nat) : PrimExpr :=
  ((shape.drop i).reverse).foldl (fun acc e => PrimExpr.Mul acc e) (.IntImm .i32 1)

/-- Strides computed from a shape when a buffer records none (the loop at
lines 457-466 / 559-568 of the source). -/
def computeStrides (shape : List PrimExpr) : List PrimExpr :=
  (((List.range shape.length).drop 1).map (strideProd shape)) ++ [.IntImm .i32 1]

mutual

/-- `IndexVisitor`: record every variable occurring in a (simplified)
fragment index against the current scaling factor (`insert` keeps the
first recorded factor for a variable). -/
def ivVisit (sf : Int) (m : List (Nat × Int)) : PrimExpr → List (Nat × Int)
  | .Var i _ _ => insKeep m i sf
  | .Cast _ e => ivVisit sf m e
  | .Add a b => ivVisit sf (ivVisit sf m a) b
  | .Sub a b => ivVisit sf (ivVisit sf m a) b
  | .Mul a b => ivVisit sf (ivVisit sf m a) b
  | .Div a b => ivVisit sf (ivVisit sf m a) b
  | .FloorMod a b => ivVisit sf (ivVisit sf m a) b
  | .ProducerLoad _ ix => ivVisitList sf m ix
  | .Call _ _ args => ivVisitList sf m args
  | .Reduce rs ss => ivVisitList sf (ivVisitList sf m rs) ss
  | .IntImm _ _ => m
  | .FloatImm _ _ => m
  | .StringImm _ => m

def ivVisitList (sf : Int) (m : List (Nat × Int)) : List PrimExpr → List (Nat × Int)
  | [] => m
  | e :: r => ivVisitList sf (ivVisit sf m e) r

end

/-- Is an optional shape entry a constant divisible by 16? -/
def dimOk16 : Option PrimExpr → Bool
  | some (.IntImm _ v) => Int.tmod v 16 = 0
  | _ => false

/-- `assign_or_check_`: first assignment wins, later ones must agree. -/
def aoc (dst src : Int) : Int × Bool :=
  if dst ≤ 0 then (src, true) else if dst = src then (dst, true) else (dst, false)

/-- The five `(role, major)` assignment branches filling the thread tile
from the two fragment tile sizes (`ts0` = last dimension, `ts1` =
second-to-last dimension). -/
def applyTileBranches (tile : Tile) (r mj : String) (ts0 ts1 : Int) : Tile × Bool :=
  let s0 := if r = "matrix_a" && mj = "col_major" then
      let (m', r1) := aoc tile.m ts0
      let (k', r2) := aoc tile.k ts1
      ({ tile with m := m', k := k' }, r1 && r2)
    else (tile, true)
  let s1 := if r = "matrix_a" && mj = "row_major" then
      let (k', r1) := aoc s0.1.k ts0
      let (m', r2) := aoc s0.1.m ts1
      ({ s0.1 with k := k', m := m' }, s0.2 && r1 && r2)
    else s0
  let s2 := if r = "matrix_b" && mj = "col_major" then
      let (k', r1) := aoc s1.1.k ts0
      let (n', r2) := aoc s1.1.n ts1
      ({ s1.1 with k := k', n := n' }, s1.2 && r1 && r2)
    else s1
  let s3 := if r = "matrix_b" && mj = "row_major" then
      let (n', r1) := aoc s2.1.n ts0
      let (k', r2) := aoc s2.1.k ts1
      ({ s2.1 with n := n', k := k' }, s2.2 && r1 && r2)
    else s2
  if r = "accumulator" then
    let (m', r1) := aoc s3.1.m ts0
    let (n', r2) := aoc s3.1.n ts1
    ({ s3.1 with m := m', n := n' }, s3.2 && r1 && r2)
  else s3

/-- The thread-tile assignment block of the store visitor (lines 493-522):
only applies when both role tables know the simplified buffer name.  The
returned flag is the accumulated `ret` (true when the block was skipped);
on a false `ret` the caller sets `invalid_` and returns early. -/
def tileAssign (cfg : BACfg) (st : BAState) (bi : BABufInfo) (ts0 ts1 : Int) :
    BAState × Bool :=
  let iname := simplifyName bi.name
  match lookupT cfg.abc iname, lookupT cfg.major iname with
  | some r, some mj =>
    let (tt, ret) := applyTileBranches st.threadTile r mj ts0 ts1
    ({ st with threadTile := tt }, ret)
  | _, _ => (st, true)

/-- The trailing fragment-store detection of the store visitor (lines
525-530): a store whose RHS is a direct load from a fragment buffer. -/
def fragStoreCheck (cfg : BACfg) (st : BAState) (sid : Nat) (t : Tensor) (value : PrimExpr)
    (indices : List PrimExpr) : BAState :=
  match value with
  | .ProducerLoad vt _ =>
    if vt.name ∈ cfg.fragReg then
      { st with fragStore := insKeep st.fragStore sid (.ProducerLoad t indices) }
    else st
  | _ => st

/-- One loop iteration over a trailing index dimension in the store
visitor: reset the scaling factor to 16, require a constant shape entry
(recording it as tile size and scaling factor), then record every variable
of the simplified relative index.  `none` models an out-of-bounds `shape`
access; the `Bool` is false when the shape entry is not a constant (the
`invalid_ = true; return;` path). -/
def baStoreDim (st : BAState) (bi : BABufInfo) (rel : List PrimExpr) (i : Nat) :
    Option (BAState × Option Int) :=
  let st := { st with scalingFactor := 16 }
  match bi.shape.get? i with
  | none => none
  | some (.IntImm _ v) =>
    let st := { st with scalingFactor := v }
    let idx := (rel.get? i).getD (.IntImm .i32 0)
    some ({ st with loopScaling := ivVisit st.scalingFactor st.loopScaling idx }, some v)
  | some _ => some (st, none)

/-- Same iteration in the load visitor (lines 580-588): a non-constant
shape entry keeps the default factor 16 and does not invalidate. -/
def baLoadDim (st : BAState) (bi : BABufInfo) (rel : List PrimExpr) (i : Nat) :
    Option BAState :=
  let st := { st with scalingFactor := 16 }
  match bi.shape.get? i with
  | none => none
  | some (.IntImm _ v) =>
    let st := { st with scalingFactor := v }
    let idx := (rel.get? i).getD (.IntImm .i32 0)
    some { st with loopScaling := ivVisit st.scalingFactor st.loopScaling idx }
  | some _ =>
    let idx := (rel.get? i).getD (.IntImm .i32 0)
    some { st with loopScaling := ivVisit st.scalingFactor st.loopScaling idx }

/-- `BufferAnalyser::VisitStmt_(const ProducerStoreNode*)` after the child
visit: shape validation, stride recording, fragment tile inference, and
fragment-store detection. -/
def baStoreStep (cfg : BACfg) (st : BAState) (sid : Nat) (t : Tensor) (value : PrimExpr)
    (indices : List PrimExpr) : Option BAState :=
  match lookupT st.bufMap t with
  | none => none
  | some bi =>
    if bi.released then none
    else if (lookupT cfg.abc t.name).isSome &&
        (bi.shape.length < 2 ||
         !(dimOk16 (bi.shape.get? (bi.shape.length - 1)) &&
           dimOk16 (bi.shape.get? (bi.shape.length - 2)))) then
      some { st with invalid := true }
    else
      let strides := if bi.strides.length > 0 then bi.strides else computeStrides bi.shape
      let st := { st with strides := insKeep st.strides t.name strides }
      if bi.name ∈ cfg.fragReg then
        let st := { st with fragLoad := insKeep st.fragLoad sid (.ProducerLoad t indices) }
        match relIndex bi indices with
        | none => none
        | some rel =>
          if indices.length < 2 then some { st with invalid := true }
          else
            match baStoreDim st bi rel (indices.length - 1) with
            | none => none
            | some (st, none) => some { st with invalid := true }
            | some (st, some v1) =>
              match baStoreDim st bi rel (indices.length - 2) with
              | none => none
              | some (st, none) => some { st with invalid := true }
              | some (st, some v2) =>
                let (st, ret) := tileAssign cfg st bi v1 v2
                if !ret then some { st with invalid := true }
                else some (fragStoreCheck cfg st sid t value indices)
      else some (fragStoreCheck cfg st sid t value indices)

/-- `BufferAnalyser::VisitExpr_(const ProducerLoadNode*)` after the child
visit. -/
def baLoadStep (cfg : BACfg) (st : BAState) (t : Tensor) (indices : List PrimExpr) :
    Option BAState :=
  match lookupT st.bufMap t with
  | none => none
  | some bi =>
    if bi.released then none
    else if (lookupT cfg.abc t.opName).isSome &&
        (bi.shape.length < 2 ||
         !(dimOk16 (bi.shape.get? (bi.shape.length - 1)) &&
           dimOk16 (bi.shape.get? (bi.shape.length - 2)))) then
      some { st with invalid := true }
    else
      let strides := if bi.strides.length > 0 then bi.strides else computeStrides bi.shape
      let st := { st with strides := insKeep st.strides t.name strides }
      if bi.name ∉ cfg.fragReg then some st
      else
        match relIndex bi indices with
        | none => none
        | some rel =>
          if indices.length < 2 then some { st with invalid := true }
          else
            match baLoadDim st bi rel (indices.length - 1) with
            | none => none
            | some st =>
              match baLoadDim st bi rel (indices.length - 2) with
              | none => none
              | some st => some st

mutual

/-- The expression traversal of `BufferAnalyser` (a `StmtExprVisitor`):
default recursion everywhere, with the producer-load hook firing after a
load's children have been visited. -/
def baExpr (cfg : BACfg) (st : BAState) : PrimExpr → Option BAState
  | .ProducerLoad t ix =>
    match baExprList cfg st ix with
    | none => none
    | some st1 => baLoadStep cfg st1 t ix
  | .Cast _ e => baExpr cfg st e
  | .Add a b =>
    match baExpr cfg st a with
    | none => none
    | some st1 => baExpr cfg st1 b
  | .Sub a b =>
    match baExpr cfg st a with
    | none => none
    | some st1 => baExpr cfg st1 b
  | .Mul a b =>
    match baExpr cfg st a with
    | none => none
    | some st1 => baExpr cfg st1 b
  | .Div a b =>
    match baExpr cfg st a with
    | none => none
    | some st1 => baExpr cfg st1 b
  | .FloorMod a b =>
    match baExpr cfg st a with
    | none => none
    | some st1 => baExpr cfg st1 b
  | .Call _ _ args => baExprList cfg st args
  | .Reduce rs ss =>
    match baExprList cfg st rs with
    | none => none
    | some st1 => baExprList cfg st1 ss
  | .IntImm _ _ => some st
  | .FloatImm _ _ => some st
  | .StringImm _ => some st
  | .Var _ _ _ => some st

def baExprList (cfg : BACfg) (st : BAState) : List PrimExpr → Option BAState
  | [] => some st
  | e :: r =>
    match baExpr cfg st e with
    | none => none
    | some st1 => baExprList cfg st1 r

end

/-- The aligned stride computation of the realize visitor (lines 607-624):
right-to-left, rounding a stride up with `indexmod` wherever a dimension
records a non-zero alignment factor; the simplifier applied to the rounded
stride is modelled as the identity. -/
def alignedStridesGo (avec : List DimAlignInfo) (shape : List PrimExpr) :
    Nat → PrimExpr → List PrimExpr → List PrimExpr
  | 0, _, acc => acc
  | i + 1, stride, acc =>
    let dim := i
    let stride1 :=
      match avec.get? dim with
      | some ai =>
        if ai.alignFactor ≠ 0 then
          let factor := PrimExpr.IntImm (exprDType stride) ai.alignFactor
          let offset := PrimExpr.IntImm (exprDType stride) ai.alignOffset
          PrimExpr.Add stride
            (.FloorMod (.Sub (.Add factor offset) (.FloorMod stride factor)) factor)
        else stride
      | none => stride
    let nextStride := PrimExpr.Mul stride1 ((shape.get? dim).getD (.IntImm .i32 1))
    alignedStridesGo avec shape i nextStride (stride1 :: acc)

/-- Strides for a realized buffer with dimension-alignment hints. -/
def alignedStrides (avec : List DimAlignInfo) (shape : List PrimExpr) : List PrimExpr :=
  alignedStridesGo avec shape shape.length
    (.IntImm (exprDType ((shape.get? 0).getD (.IntImm .i32 1))) 1) []

/-- Mark a `BufferAnalyser` buffer entry released. -/
def baMarkReleased (m : List (Tensor × BABufInfo)) (t : Tensor) : List (Tensor × BABufInfo) :=
  match lookupT m t with
  | some bi => setT m t { bi with released := true }
  | none => m

/-- `List.set` with C++ `vector::resize` semantics for `dim_align_`. -/
def resizeSet (l : List DimAlignInfo) (i : Nat) (v : DimAlignInfo) : List DimAlignInfo :=
  let l1 := if l.length ≥ i + 1 then l else l ++ List.replicate (i + 1 - l.length) ⟨0, 0⟩
  l1.set i v

/-- The statement traversal of `BufferAnalyser`. -/
def runBA (cfg : BACfg) (st : BAState) : Stmt → Option BAState
  | .AttrStmt node key value body =>
    if key = "thread_extent" then
      match value with
      | .IntImm _ v =>
        match node with
        | .iterVar _ vn =>
          let st1 := { st with threadExtent := insKeep st.threadExtent vn v }
          match baExpr cfg st1 value with
          | none => none
          | some st2 => runBA cfg st2 body
        | _ => none
      | _ =>
        match baExpr cfg st value with
        | none => none
        | some st1 => runBA cfg st1 body
    else if key = "realize_scope" then
      match value with
      | .StringImm s =>
        match node.key with
        | some k => runBA cfg { st with storageScope := setT st.storageScope k s } body
        | none => runBA cfg st body
      | _ => none
    else if key = "buffer_dim_align" then
      match node with
      | .tensor t =>
        match value with
        | .Call _ op args =>
          if op ≠ "tvm_tuple" then none
          else
            match args.get? 0, args.get? 1, args.get? 2 with
            | some (.IntImm _ dim), some (.IntImm _ fac), some (.IntImm _ off) =>
              if dim < 0 then none
              else
                let vinfo := (lookupT st.dimAlign t).getD []
                let vinfo1 := resizeSet vinfo dim.toNat ⟨fac, off⟩
                runBA cfg { st with dimAlign := setT st.dimAlign t vinfo1 } body
            | _, _, _ => none
        | _ => none
      | _ => none
    else
      match baExpr cfg st value with
      | none => none
      | some st1 => runBA cfg st1 body
  | .ProducerRealize t bounds _ body =>
    match lookupT st.bufMap t with
    | some bi => if !bi.external then none else runBA cfg st body
    | none =>
      let shape := bounds.map (·.extent)
      let strides :=
        if (lookupT st.dimAlign t).isSome && shape.length ≠ 0 then
          alignedStrides ((lookupT st.dimAlign t).getD []) shape
        else []
      let bi : BABufInfo := ⟨t.name, t.dtype, strides, shape, bounds, false, false⟩
      match runBA cfg { st with bufMap := setT st.bufMap t bi } body with
      | none => none
      | some st2 => some { st2 with bufMap := baMarkReleased st2.bufMap t }
  | .ProducerStore sid t value indices =>
    match baExprList cfg st indices with
    | none => none
    | some st1 =>
      match baExpr cfg st1 value with
      | none => none
      | some st2 => baStoreStep cfg st2 sid t value indices
  | .For _ _ mn ext _ _ _ body =>
    match baExpr cfg st mn with
    | none => none
    | some st1 =>
      match baExpr cfg st1 ext with
      | none => none
      | some st2 => runBA cfg st2 body
  | .Seq a b =>
    match runBA cfg st a with
    | none => none
    | some st1 => runBA cfg st1 b
  | .Evaluate e => baExpr cfg st e

/-- `BufferAnalyser::supported_warp_tile_`. -/
def supportedWarpTile (wt : Tile) : Bool :=
  (wt.m = 16 && wt.n = 16 && wt.k = 16) ||
  (wt.m = 8 && wt.n = 32 && wt.k = 16) ||
  (wt.m = 32 && wt.n = 8 && wt.k = 16) ||
  (wt.m = 8 && wt.n = 8 && wt.k = 32) ||
  (wt.m = 8 && wt.n = 8 && wt.k = 128)

/-- `BufferAnalyser::QualifiedForTensorCore`: derive the warp tile from the
thread tile and the recorded thread extents, and check it against the
supported set.  Returns the updated state (the derived `warp_tile_` and
`warp_threads_y_`) together with the boolean result. -/
def qualify (st : BAState) : BAState × Bool :=
  if st.invalid then (st, false)
  else
    match lookupT st.threadExtent "threadIdx.x" with
    | none => (st, false)
    | some wx =>
      let st := { st with warpTile := { st.warpTile with m := wx * st.threadTile.m },
                          warpThreadsY := Int.tdiv 32 wx }
      match lookupT st.threadExtent "threadIdx.y" with
      | none => (st, false)
      | some ty =>
        if ty < st.warpThreadsY || Int.tmod ty st.warpThreadsY ≠ 0 then (st, false)
        else
          let st := { st with warpTile := { st.warpTile with
            n := st.warpThreadsY * st.threadTile.n, k := st.threadTile.k } }
          (st, supportedWarpTile st.warpTile)

/-- `PrimExpr::as<ProducerLoadNode>()`: the producer and indices. -/
def exprAsLoad : PrimExpr → Option (Tensor × List PrimExpr)
  | .ProducerLoad t ix => some (t, ix)
  | _ => none

mutual

/-- `ThreadIdxMutator`: `threadIdx.x` becomes the constant 0; `threadIdx.y`
becomes `(threadIdx.y / warp_y) * warp_y`; everything else is rebuilt
unchanged. -/
def timut (warpY : PrimExpr) : PrimExpr → PrimExpr
  | .IntImm d v => .IntImm d v
  | .FloatImm d v => .FloatImm d v
  | .StringImm s => .StringImm s
  | .Var i n d =>
    if n = "threadIdx.x" then .IntImm .i32 0
    else if n = "threadIdx.y" then .Mul (.Div (.Var i n d) warpY) warpY
    else .Var i n d
  | .Cast d e => .Cast d (timut warpY e)
  | .Add a b => .Add (timut warpY a) (timut warpY b)
  | .Sub a b => .Sub (timut warpY a) (timut warpY b)
  | .Mul a b => .Mul (timut warpY a) (timut warpY b)
  | .Div a b => .Div (timut warpY a) (timut warpY b)
  | .FloorMod a b => .FloorMod (timut warpY a) (timut warpY b)
  | .ProducerLoad t ix => .ProducerLoad t (timutList warpY ix)
  | .Call d o args => .Call d o (timutList warpY args)
  | .Reduce rs ss => .Reduce (timutList warpY rs) (timutList warpY ss)

def timutList (warpY : PrimExpr) : List PrimExpr → List PrimExpr
  | [] => []
  | e :: r => timut warpY e :: timutList warpY r

end

/-- The read-only state of `TensorCoreIRMutator`, aggregated from the three
analysis stages. -/
structure MutCfg where
  abc : List (String × String)
  major : List (String × String)
  mmaSync : List MRec
  strides : List (String × List PrimExpr)
  fragReg : List String
  loopScaling : List (Nat × Int)
  fragLoad : List (Nat × PrimExpr)
  fragStore : List (Nat × PrimExpr)
  warpTile : Tile
  warpThreadsY : Int

/-- `mma_sync_.find(op)` keyed by store node id. -/
def lookupRec (l : List MRec) (sid : Nat) : Option MRec :=
  match l with
  | [] => none
  | r :: rest => if r.sid = sid then some r else lookupRec rest sid

/-- `TensorCoreIRMutator::get_tile_size_`: the `(size0, size1)` pair for a
simplified name, defaulting to `(16, 16)`.  `none` models the `ICHECK` on
the role tables.  Note the last branch tests the role string "matrix_c",
which no stage ever assigns (the analyser writes "accumulator"). -/
def getTileSize (cfg : MutCfg) (name : String) : Option (PrimExpr × PrimExpr) :=
  match lookupT cfg.abc name, lookupT cfg.major name with
  | some r, some mj =>
    let s : PrimExpr × PrimExpr := (.IntImm .i32 16, .IntImm .i32 16)
    let s := if r = "matrix_a" && mj = "col_major" then
        ((.IntImm .i32 cfg.warpTile.k : PrimExpr), (.IntImm .i32 cfg.warpTile.m : PrimExpr))
      else s
    let s := if r = "matrix_a" && mj = "row_major" then
        ((.IntImm .i32 cfg.warpTile.m : PrimExpr), (.IntImm .i32 cfg.warpTile.k : PrimExpr))
      else s
    let s := if r = "matrix_b" && mj = "row_major" then
        ((.IntImm .i32 cfg.warpTile.k : PrimExpr), (.IntImm .i32 cfg.warpTile.n : PrimExpr))
      else s
    let s := if r = "matrix_b" && mj = "col_major" then
        ((.IntImm .i32 cfg.warpTile.n : PrimExpr), (.IntImm .i32 cfg.warpTile.k : PrimExpr))
      else s
    let s := if r = "matrix_c" then
        ((.IntImm .i32 cfg.warpTile.n : PrimExpr), (.IntImm .i32 cfg.warpTile.m : PrimExpr))
      else s
    some s
  | _, _ => none

/-- The bounds table maintained by the mutator (`bounds_`). -/
def BndMap : Type := List (Tensor × List RangeE)

/-- The `elem_offset` sum `Σ strides[i] * (index[i] - min[i])` as the
source builds it (left-nested additions starting from the constant 0). -/
def elemOffsetFold (strides indices minB : List PrimExpr) : PrimExpr :=
  (strides.zip (indices.zip minB)).foldl
    (fun acc sim => PrimExpr.Add acc (.Mul sim.1 (.Sub sim.2.1 sim.2.2)))
    (.IntImm .i32 0)

/-- The `tvm_tuple(idx[0], shape[0], idx[1], shape[1], ...)` argument list. -/
def interleave : List PrimExpr → List PrimExpr → List PrimExpr
  | i :: ir, s :: sr => i :: s :: interleave ir sr
  | _, _ => []

/-- The fresh handle variable `Var(tensor->op->name, Handle)` created for a
fragment buffer descriptor.  Its object identity is immaterial to the
pass (nothing ever compares it), so it carries a fixed id. -/
def freshDataVar (t : Tensor) : PrimExpr :=
  .Var 0 t.opName .handle

/-- `TensorCoreIRMutator::add_buffer_bind_scope_`: synthesize the fragment
buffer descriptor for a producer load, wrap the callback's statement in a
`buffer_bind_scope` attribute carrying the `tvm_tuple` of indices and
shapes.  `none` models the various `ICHECK`s and the dereference of a null
load node.  The simplifier applied to `elem_offset` is modelled as the
identity. -/
def addBufferBindScope (cfg : MutCfg) (bnd : BndMap)
    (pload : Option (Tensor × List PrimExpr)) (callBack : BufDescr → Option Stmt) :
    Option Stmt :=
  match pload with
  | none => none
  | some (t, indices) =>
    match lookupT (bnd : List (Tensor × List RangeE)) t with
    | none => none
    | some bounds =>
      let minBound := bounds.map (·.min)
      if bounds.length < 2 then none
      else
        match getTileSize cfg (simplifyName t.opName) with
        | none => none
        | some (ts0, ts1) =>
          let shape := (bounds.take (bounds.length - 2)).map (·.extent) ++ [ts0, ts1]
          let strides := computeStrides shape
          if indices.length ≠ minBound.length then none
          else
            let elemOffset := elemOffsetFold strides indices minBound
            match lookupT cfg.abc (simplifyName t.opName) with
            | none => none
            | some role =>
              let descr : BufDescr :=
                ⟨freshDataVar t, t.opName, "wmma." ++ role, t.dtype, strides, shape,
                  1, elemOffset, 1⟩
              match callBack descr with
              | none => none
              | some inner =>
                some (.AttrStmt (.bufArr descr t) "buffer_bind_scope"
                  (.Call .handle "tvm_tuple" (interleave indices shape)) inner)

/-- `TensorCoreIRMutator`, threading the `bounds_` table through the
traversal.  The expression mutation of the base `StmtExprMutator` is the
identity (the class overrides no expression visitor). -/
def mutate (cfg : MutCfg) (bnd : BndMap) : Stmt → Option (Stmt × BndMap)
  | .ProducerRealize t bounds cond body =>
    let bnd1 := setT (bnd : List (Tensor × List RangeE)) t bounds
    match mutate cfg bnd1 body with
    | none => none
    | some (body1, bnd2) =>
      if t.name ∉ cfg.fragReg then some (.ProducerRealize t bounds cond body1, bnd2)
      else
        match getTileSize cfg (simplifyName t.name) with
        | none => none
        | some (e0, e1) =>
          if bounds.length < 2 then none
          else
            let pad : RangeE := ⟨.IntImm .i32 0, .IntImm .i32 0⟩
            let newBounds := bounds.take (bounds.length - 2) ++
              [⟨((bounds.get? (bounds.length - 2)).getD pad).min, e0⟩,
               ⟨((bounds.get? (bounds.length - 1)).getD pad).min, e1⟩]
            some (.ProducerRealize t newBounds cond body1, bnd2)
  | .AttrStmt node key value body =>
    match mutate cfg bnd body with
    | none => none
    | some (body1, bnd1) =>
      let stmt1 := Stmt.AttrStmt node key value body1
      if key = "realize_scope" then
        match node with
        | .op oid opName =>
          if opName ∉ cfg.fragReg then some (stmt1, bnd1)
          else
            match lookupT cfg.abc (simplifyName opName) with
            | none => none
            | some role =>
              match mutate cfg bnd1 body with
              | none => none
              | some (body2, bnd2) =>
                some (.AttrStmt (.op oid opName) key (.StringImm ("wmma." ++ role)) body2, bnd2)
        | _ => some (stmt1, bnd1)
      else some (stmt1, bnd1)
  | .ProducerStore sid t value indices =>
    let stmt1 := Stmt.ProducerStore sid t value indices
    match lookupRec cfg.mmaSync sid with
    | some r =>
      let ca := exprAsLoad r.a
      let cb := exprAsLoad r.b
      let cc := exprAsLoad r.c
      let result := addBufferBindScope cfg bnd ca (fun da =>
        addBufferBindScope cfg bnd cb (fun db =>
          addBufferBindScope cfg bnd cc (fun dc =>
            match ca, cb with
            | some (ta, _), some (tb, _) =>
              let opName := if ta.dtype = .i1 && tb.dtype = .i1
                then "tvm_bmma_sync" else "tvm_mma_sync"
              some (.Evaluate (.Call .handle opName
                [dc.data, dc.elemOffset, da.data, da.elemOffset,
                 db.data, db.elemOffset, dc.data, dc.elemOffset]))
            | _, _ => none)))
      result.map (fun s => (s, bnd))
    | none =>
      match lookupT cfg.fragLoad sid with
      | some dst =>
        match value with
        | .FloatImm fd fv =>
          (addBufferBindScope cfg bnd (exprAsLoad dst) (fun buf =>
            some (.Evaluate (.Call .handle "tvm_fill_fragment"
              [buf.data, .IntImm .i32 cfg.warpTile.m, .IntImm .i32 cfg.warpTile.n,
               .IntImm .i32 cfg.warpTile.k, buf.elemOffset, .FloatImm fd fv])))).map
            (fun s => (s, bnd))
        | .IntImm idd iv =>
          (addBufferBindScope cfg bnd (exprAsLoad dst) (fun buf =>
            some (.Evaluate (.Call .handle "tvm_fill_fragment"
              [buf.data, .IntImm .i32 cfg.warpTile.m, .IntImm .i32 cfg.warpTile.n,
               .IntImm .i32 cfg.warpTile.k, buf.elemOffset, .IntImm idd iv])))).map
            (fun s => (s, bnd))
        | .ProducerLoad vt vix =>
          match lookupT cfg.strides vt.name with
          | none => none
          | some strs =>
            if strs.length < 2 then none
            else
              let stride := (strs.get? (strs.length - 2)).getD (.IntImm .i32 0)
              let warpY : PrimExpr := .IntImm .i32 cfg.warpThreadsY
              let src : PrimExpr := .Call vt.dtype "call_extern"
                [.StringImm "&", timut warpY (.ProducerLoad vt vix)]
              match exprAsLoad dst with
              | none => none
              | some (pt, pix) =>
                match lookupT cfg.major (simplifyName pt.name) with
                | none => none
                | some mj =>
                  if mj = "col_major" || mj = "row_major" then
                    (addBufferBindScope cfg bnd (some (pt, pix)) (fun buf =>
                      some (.Evaluate (.Call .handle "tvm_load_matrix_sync"
                        [buf.data, .IntImm .i32 cfg.warpTile.m, .IntImm .i32 cfg.warpTile.n,
                         .IntImm .i32 cfg.warpTile.k, buf.elemOffset, src, stride,
                         .StringImm mj])))).map (fun s => (s, bnd))
                  else none
        | _ => none
      | none =>
        match lookupT cfg.fragStore sid with
        | some dst =>
          match lookupT cfg.strides t.name with
          | none => none
          | some strs =>
            if strs.length < 2 then none
            else
              let stride := (strs.get? (strs.length - 2)).getD (.IntImm .i32 0)
              let warpY : PrimExpr := .IntImm .i32 cfg.warpThreadsY
              let dstM : PrimExpr := .Call .handle "call_extern"
                [.StringImm "&", timut warpY dst]
              (addBufferBindScope cfg bnd (exprAsLoad value) (fun buf =>
                some (.Evaluate (.Call .handle "tvm_store_matrix_sync"
                  [buf.data, .IntImm .i32 cfg.warpTile.m, .IntImm .i32 cfg.warpTile.n,
                   .IntImm .i32 cfg.warpTile.k, buf.elemOffset, dstM, stride,
                   .StringImm "col_major"])))).map (fun s => (s, bnd))
        | none => some (stmt1, bnd)
  | .For v vn mn ext kind tb ann body =>
    match mutate cfg bnd body with
    | none => none
    | some (body1, bnd1) =>
      match lookupT cfg.loopScaling v with
      | some f =>
        let scaled : Int :=
          match ext with
          | .IntImm _ e => Int.tdiv e f
          | _ => 1
        some (.For v vn mn (.IntImm (exprDType ext) scaled) kind tb ann body1, bnd1)
      | none => some (.For v vn mn ext kind tb ann body1, bnd1)
  | .Seq a b =>
    match mutate cfg bnd a with
    | none => none
    | some (a1, bnd1) =>
      match mutate cfg bnd1 b with
      | none => none
      | some (b1, bnd2) => some (.Seq a1 b1, bnd2)
  | .Evaluate e => some (.Evaluate e, bnd)

/-- The inputs of `SchedulePostProcRewriteForTensorCore` together with the
ambient target and device-API context it probes. -/
structure PassInput where
  stmt : Stmt
  schedule : Schedule
  externBuffer : List (Tensor × ExtBuffer)
  targetDefined : Bool
  targetName : String
  deviceApiPresent : Bool

/-- The `TensorCoreIRMutator` constructor: aggregate the analysis results. -/
def mkMutCfg (maps : RoleMaps) (recs : List MRec) (fragReg : List String) (ba : BAState) :
    MutCfg :=
  ⟨maps.abc, maps.major, recs, ba.strides, fragReg, ba.loopScaling,
   ba.fragLoad, ba.fragStore, ba.warpTile, ba.warpThreadsY⟩

/-- The tail of the driver from the qualification check on (lines
1111-1115 of the source): return the input unchanged unless the buffer
analysis qualifies for tensor cores, otherwise run the mutator. -/
def stage4 (maps : RoleMaps) (recs : List MRec) (fragReg : List String) (ba : BAState)
    (s : Stmt) : Option Stmt :=
  let (ba2, q) := qualify ba
  if !q then some s
  else
    match mutate (mkMutCfg maps recs fragReg ba2) ([] : BndMap) s with
    | none => none
    | some (s1, _) => some s1

/-- The driver `SchedulePostProcRewriteForTensorCore`: abort (returning the
input statement) when the target is not CUDA, the device API is missing,
nothing matched, the matrix identification returns false, or the warp tile
is not qualified; otherwise run the mutator.  `none` models a crash or
undefined behaviour in any stage. -/
def SchedulePostProcRewriteForTensorCore (inp : PassInput) : Option Stmt :=
  if inp.targetDefined && inp.targetName ≠ "cuda" then some inp.stmt
  else if !inp.deviceApiPresent then some inp.stmt
  else
    match runMatcher (matcherInit inp.externBuffer) inp.stmt with
    | none => none
    | some m =>
      if !m.matched then some inp.stmt
      else
        match matrixIdentify m inp.schedule with
        | none => none
        | some (false, _, _) => some inp.stmt
        | some (true, maps, recs) =>
          let bacfg : BACfg := ⟨maps.abc, maps.major, m.fragReg⟩
          match runBA bacfg (baInit inp.externBuffer) inp.stmt with
          | none => none
          | some ba => stage4 maps recs m.fragReg ba inp.stmt

/-- The six low-precision operand dtypes admitted by the spec for the
multiplication factors of a matched store. -/
def allowedFactorDtype (d : DType) : Bool :=
  d = .f16 || d = .i8 || d = .u8 || d = .i4 || d = .u4 || d = .i1

mutual

/-- No variable named `nm` occurs in the expression. -/
def noVarNamed (nm : String) : PrimExpr → Bool
  | .IntImm _ _ => true
  | .FloatImm _ _ => true
  | .StringImm _ => true
  | .Var _ n _ => n ≠ nm
  | .Cast _ e => noVarNamed nm e
  | .Add a b => noVarNamed nm a && noVarNamed nm b
  | .Sub a b => noVarNamed nm a && noVarNamed nm b
  | .Mul a b => noVarNamed nm a && noVarNamed nm b
  | .Div a b => noVarNamed nm a && noVarNamed nm b
  | .FloorMod a b => noVarNamed nm a && noVarNamed nm b
  | .ProducerLoad _ ix => noVarNamedList nm ix
  | .Call _ _ args => noVarNamedList nm args
  | .Reduce rs ss => noVarNamedList nm rs && noVarNamedList nm ss

def noVarNamedList (nm : String) : List PrimExpr → Bool
  | [] => true
  | e :: r => noVarNamed nm e && noVarNamedList nm r

end

/-- Is the expression exactly the collapsed form `(threadIdx.y / w) * w`? -/
def isCollapsedY (w : PrimExpr) : PrimExpr → Bool
  | .Mul (.Div (.Var _ n _) w1) w2 => n = "threadIdx.y" && peq w1 w && peq w2 w
  | _ => false

mutual

/-- Every occurrence of `threadIdx.y` in the expression is inside the
collapsed form `(threadIdx.y / w) * w`. -/
def yCollapsed (w : PrimExpr) : PrimExpr → Bool
  | .IntImm _ _ => true
  | .FloatImm _ _ => true
  | .StringImm _ => true
  | .Var _ n _ => n ≠ "threadIdx.y"
  | .Cast _ e => yCollapsed w e
  | .Add a b => yCollapsed w a && yCollapsed w b
  | .Sub a b => yCollapsed w a && yCollapsed w b
  | .Mul a b => isCollapsedY w (.Mul a b) || (yCollapsed w a && yCollapsed w b)
  | .Div a b => yCollapsed w a && yCollapsed w b
  | .FloorMod a b => yCollapsed w a && yCollapsed w b
  | .ProducerLoad _ ix => yCollapsedList w ix
  | .Call _ _ args => yCollapsedList w args
  | .Reduce rs ss => yCollapsedList w rs && yCollapsedList w ss

def yCollapsedList (w : PrimExpr) : List PrimExpr → Bool
  | [] => true
  | e :: r => yCollapsed w e && yCollapsedList w r

end

/-- Does statement `s` contain a producer store with node id `sid`? -/
def containsStore : Stmt → Nat → Bool
  | .AttrStmt _ _ _ b, sid => containsStore b sid
  | .ProducerRealize _ _ _ b, sid => containsStore b sid
  | .ProducerStore s _ _ _, sid => s = sid
  | .For _ _ _ _ _ _ _ b, sid => containsStore b sid
  | .Seq a b, sid => containsStore a sid || containsStore b sid
  | .Evaluate _, _ => false

/-- Is the store with node id `sid` lexically nested under some attribute
with key `pragma_tensor_core`? -/
def storeUnderPragma : Stmt → Nat → Bool
  | .AttrStmt _ key _ b, sid =>
    if key = "pragma_tensor_core" then containsStore b sid else storeUnderPragma b sid
  | .ProducerRealize _ _ _ b, sid => storeUnderPragma b sid
  | .ProducerStore _ _ _ _, _ => false
  | .For _ _ _ _ _ _ _ b, sid => storeUnderPragma b sid
  | .Seq a b, sid => storeUnderPragma a sid || storeUnderPragma b sid
  | .Evaluate _, _ => false

/-- Does the statement contain any `pragma_tensor_core` attribute? -/
def noPragma : Stmt → Bool
  | .AttrStmt _ key _ b => key ≠ "pragma_tensor_core" && noPragma b
  | .ProducerRealize _ _ _ b => noPragma b
  | .ProducerStore _ _ _ _ => true
  | .For _ _ _ _ _ _ _ b => noPragma b
  | .Seq a b => noPragma a && noPragma b
  | .Evaluate _ => true

/-- The `elem_offset` of the buffer descriptor attached by a rewritten
store's outermost `buffer_bind_scope` attribute, when the mutator
produced one. -/
def bindElemOffset : Option (Stmt × BndMap) → Option PrimExpr
  | some (.AttrStmt (.bufArr d _) _ _ _, _) => some d.elemOffset
  | _ => none

/-- A uint-4 local buffer (the A operand of the C1 scenario). -/
def tAu4 : Tensor := ⟨1, "A", "A", .u4⟩

/-- A float-32 local buffer standing where a low-precision B operand is
required. -/
def tBf32 : Tensor := ⟨2, "B", "B", .f32⟩

/-- The float-32 accumulator buffer. -/
def tCf32 : Tensor := ⟨3, "C", "C", .f32⟩

/-- The store `C[i] = C[i] + A[i] * B[i]` with A uint-4 and B float-32. -/
def c1Store : Stmt :=
  .ProducerStore 1 tCf32
    (.Add (.ProducerLoad tCf32 [.Var 10 "i" .i32])
          (.Mul (.ProducerLoad tAu4 [.Var 10 "i" .i32])
                (.ProducerLoad tBf32 [.Var 10 "i" .i32])))
    [.Var 10 "i" .i32]

/-- Wrap a body in local realize-scope attributes and realizes for the
three C1 buffers, plus a `pragma_tensor_core` region around the store. -/
def c1Stmt : Stmt :=
  .AttrStmt (.tensor tAu4) "realize_scope" (.StringImm "local")
    (.AttrStmt (.tensor tBf32) "realize_scope" (.StringImm "local")
      (.AttrStmt (.tensor tCf32) "realize_scope" (.StringImm "local")
        (.ProducerRealize tAu4 [] (.IntImm .i32 1)
          (.ProducerRealize tBf32 [] (.IntImm .i32 1)
            (.ProducerRealize tCf32 [] (.IntImm .i32 1)
              (.AttrStmt (.other 0) "pragma_tensor_core" (.IntImm .i32 1) c1Store))))))

/-- A float-16 local buffer. -/
def tAf16 : Tensor := ⟨1, "A", "A", .f16⟩

/-- A float-16 local buffer. -/
def tBf16 : Tensor := ⟨2, "B", "B", .f16⟩

/-- The well-formed MMA store `C[i] = C[i] + A[i] * B[i]` with f16 inputs. -/
def c8Store : Stmt :=
  .ProducerStore 1 tCf32
    (.Add (.ProducerLoad tCf32 [.Var 10 "i" .i32])
          (.Mul (.ProducerLoad tAf16 [.Var 10 "i" .i32])
                (.ProducerLoad tBf16 [.Var 10 "i" .i32])))
    [.Var 10 "i" .i32]

/-- A `pragma_tensor_core` attribute over an empty body, followed (as a
sequence sibling, not an enclosing scope) by the MMA store. -/
def c8Stmt : Stmt :=
  .AttrStmt (.tensor tAf16) "realize_scope" (.StringImm "local")
    (.AttrStmt (.tensor tBf16) "realize_scope" (.StringImm "local")
      (.AttrStmt (.tensor tCf32) "realize_scope" (.StringImm "local")
        (.ProducerRealize tAf16 [] (.IntImm .i32 1)
          (.ProducerRealize tBf16 [] (.IntImm .i32 1)
            (.ProducerRealize tCf32 [] (.IntImm .i32 1)
              (.Seq (.AttrStmt (.other 0) "pragma_tensor_core" (.IntImm .i32 1)
                      (.Evaluate (.IntImm .i32 0)))
                c8Store))))))

/-- The same program with no `pragma_tensor_core` attribute anywhere. -/
def c8WStmt : Stmt :=
  .AttrStmt (.tensor tAf16) "realize_scope" (.StringImm "local")
    (.AttrStmt (.tensor tBf16) "realize_scope" (.StringImm "local")
      (.AttrStmt (.tensor tCf32) "realize_scope" (.StringImm "local")
        (.ProducerRealize tAf16 [] (.IntImm .i32 1)
          (.ProducerRealize tBf16 [] (.IntImm .i32 1)
            (.ProducerRealize tCf32 [] (.IntImm .i32 1) c8Store)))))

/-- The matcher record arising from the f16 scenario (operands are
producer-load nodes, as `mma_sync_match_` always records them). -/
def c4Rec : MRec :=
  ⟨1, .ProducerLoad tAf16 [.Var 10 "i" .i32], .ProducerLoad tBf16 [.Var 10 "i" .i32],
    .ProducerLoad tCf32 [.Var 10 "i" .i32]⟩

/-- A mutator configuration whose role tables classify "C" as an
accumulator, with the warp tile (8, 32, 16). -/
def c5Cfg : MutCfg :=
  ⟨[("C", "accumulator")], [("C", "col_major")], [], [], [], [], [], [], ⟨8, 32, 16⟩, 4⟩

/-- A float-32 global (non-fragment) source buffer. -/
def tGf32 : Tensor := ⟨4, "G", "G", .f32⟩

/-- A mutator configuration for a fragment load into the accumulator "C"
from the global buffer "G", warp tile (16, 16, 16), two warp rows. -/
def c6Cfg : MutCfg :=
  ⟨[("C", "accumulator")], [("C", "col_major")], [],
   [("G", [.IntImm .i32 16, .IntImm .i32 1])], ["C"], [],
   [(7, .ProducerLoad tCf32 [.Var 1 "threadIdx.x" .i32, .Var 2 "threadIdx.y" .i32])], [],
   ⟨16, 16, 16⟩, 2⟩

/-- The mutator bounds for "C": a 16 x 16 region based at zero. -/
def c6Bnd : BndMap :=
  [(tCf32, [⟨.IntImm .i32 0, .IntImm .i32 16⟩, ⟨.IntImm .i32 0, .IntImm .i32 16⟩])]

/-- The fragment-load store `C[threadIdx.x, threadIdx.y] = G[threadIdx.x]`. -/
def c6Store : Stmt :=
  .ProducerStore 7 tCf32 (.ProducerLoad tGf32 [.Var 1 "threadIdx.x" .i32])
    [.Var 1 "threadIdx.x" .i32, .Var 2 "threadIdx.y" .i32]

/-- A buffer-analysis state with thread extents 16 x 2 and thread tile
(1, 8, 16), which qualifies with warp tile (16, 16, 16). -/
def c2WState : BAState :=
  ⟨[], [], [], [], [], [], [("threadIdx.x", 16), ("threadIdx.y", 2)], [], 0,
   ⟨-1, -1, -1⟩, ⟨1, 8, 16⟩, -1, false⟩

/-- A mutator configuration scaling loop variable 5 by factor 16. -/
def mutWCfg : MutCfg :=
  ⟨[], [], [], [], [], [(5, 16)], [], [], ⟨16, 16, 16⟩, 2⟩

/-- A pass input whose target is defined and not CUDA. -/
def c9WInput : PassInput :=
  ⟨.Evaluate (.IntImm .i32 0), ⟨[]⟩, [], true, "llvm", true⟩

/-- The matcher invariant driving the idempotence argument: once `matched_`
is set there is at least one `mma_sync_` record, and every recorded first
operand is a producer load (hence never a call node). -/
def MInv (st : MState) : Prop :=
  (st.matched = true → st.mmaSync ≠ []) ∧ ∀ r ∈ st.mmaSync, exprAsCall r.a = none

theorem lookupT_append_none {α β : Type} [DecidableEq α] (m : List (α × β)) (k : α) (v : β)
    (h : lookupT m k = none) : lookupT (m ++ [(k, v)]) k = some v := by
  induction m with
  | nil => simp [lookupT]
  | cons kv r ih =>
    obtain ⟨k0, v0⟩ := kv
    simp only [List.cons_append, lookupT] at h ⊢
    by_cases hk : k0 = k
    · simp [hk] at h
    · simp only [hk, if_false] at h ⊢
      exact ih h

theorem insKeepRec_ne_nil (m : List MRec) (r : MRec) : insKeepRec m r ≠ [] := by
  unfold insKeepRec
  split
  · intro hm
    subst hm
    simp_all [List.any_nil]
  · simp

theorem mem_insKeepRec (m : List MRec) (r : MRec) :
    ∀ x ∈ insKeepRec m r, x ∈ m ∨ x = r := by
  intro x hx
  unfold insKeepRec at hx
  split at hx
  · exact Or.inl hx
  · rcases List.mem_append.mp hx with h | h
    · exact Or.inl h
    · exact Or.inr (List.mem_singleton.mp h)

/-- Claim C1: the spec says every matched store's multiplication factors,
in particular the B operand, load from a buffer whose dtype is one of
float-16 / int-8 / uint-8 / int-4 / uint-4 / int-1.  The matcher accepts
the store `C = C + A * B` with A uint-4 and B float-32 (the uint-4 and
int-1 arms of the B check test `buffer_a.dtype`), recording a B operand
whose buffer dtype lies outside the six-element set: the claim fails on
the code. -/
theorem c1_matcher_accepts_f32_b :
    (runMatcher (matcherInit []) c1Stmt).map MState.matched = some true ∧
    (runMatcher (matcherInit []) c1Stmt).map (fun st => st.mmaSync.map MRec.b) =
      some [.ProducerLoad tBf32 [.Var 10 "i" .i32]] ∧
    tBf32.dtype = .f32 ∧ allowedFactorDtype .f32 = false :=
  ⟨rfl, rfl, rfl, rfl⟩

/-- Claim C4: the consistency phase is supposed to look up the two input
buffers' simplified names and compare their roles.  The operands recorded
by the matcher are producer-load nodes, so the `.as<CallNode>()` casts at
the head of the loop yield null, the `buf_name_.find` misses, and the
unchecked iterator dereference is undefined behaviour — here for a record
whose two names are classified exactly as `(matrix_a, matrix_b)` and whose
`buf_name_` table is populated precisely as the matcher populates it. -/
theorem c4_consistency_deref_ub :
    exprAsCall c4Rec.a = none ∧
    consistencyPass [("A", "matrix_a"), ("B", "matrix_b")]
      [(c4Rec.a, "A"), (c4Rec.b, "B")] [c4Rec] = none :=
  ⟨rfl, rfl⟩

/-- Claim C5: the spec's tile table sends an accumulator to `(N, M)`, which
for the warp tile (8, 32, 16) is (32, 8).  The code's last branch tests
the role string "matrix_c", which no stage ever assigns (the analyser
writes "accumulator"), so an accumulator tensor falls through to the
defaults (16, 16). -/
theorem c5_accumulator_tile_defaults :
    getTileSize c5Cfg "C" = some (.IntImm .i32 16, .IntImm .i32 16) ∧
    ¬ getTileSize c5Cfg "C" = some (.IntImm .i32 32, .IntImm .i32 8) := by
  refine ⟨rfl, ?_⟩
  intro h
  rw [show getTileSize c5Cfg "C" =
    some ((.IntImm .i32 16 : PrimExpr), (.IntImm .i32 16 : PrimExpr)) from rfl] at h
  simp at h

/-- Claim C6 (counterexample): rewriting the fragment load
`C[threadIdx.x, threadIdx.y] = G[threadIdx.x]` emits a `buffer_bind_scope`
whose synthesized `elem_offset` still contains `threadIdx.x`: the
descriptor is built from the original store indices, which are never
passed through `ThreadIdxMutator`. -/
theorem c6_elem_offset_keeps_threadidx :
    (bindElemOffset (mutate c6Cfg c6Bnd c6Store)).map (noVarNamed "threadIdx.x") =
      some false :=
  rfl

mutual

theorem timutSound (w : Int) : (e : PrimExpr) →
    noVarNamed "threadIdx.x" (timut (.IntImm .i32 w) e) = true ∧
    yCollapsed (.IntImm .i32 w) (timut (.IntImm .i32 w) e) = true
  | .IntImm _ _ => ⟨rfl, rfl⟩
  | .FloatImm _ _ => ⟨rfl, rfl⟩
  | .StringImm _ => ⟨rfl, rfl⟩
  | .Var i n d => by
    by_cases hx : n = "threadIdx.x"
    · simp [timut, hx, noVarNamed, yCollapsed]
    · by_cases hy : n = "threadIdx.y"
      · simp [timut, hx, hy, noVarNamed, yCollapsed, isCollapsedY, peq]
      · simp [timut, hx, hy, noVarNamed, yCollapsed]
  | .Cast d e => by
    have h := timutSound w e
    simp [timut, noVarNamed, yCollapsed, h.1, h.2]
  | .Add a b => by
    have ha := timutSound w a
    have hb := timutSound w b
    simp [timut, noVarNamed, yCollapsed, ha.1, ha.2, hb.1, hb.2]
  | .Sub a b => by
    have ha := timutSound w a
    have hb := timutSound w b
    simp [timut, noVarNamed, yCollapsed, ha.1, ha.2, hb.1, hb.2]
  | .Mul a b => by
    have ha := timutSound w a
    have hb := timutSound w b
    simp [timut, noVarNamed, yCollapsed, ha.1, ha.2, hb.1, hb.2]
  | .Div a b => by
    have ha := timutSound w a
    have hb := timutSound w b
    simp [timut, noVarNamed, yCollapsed, ha.1, ha.2, hb.1, hb.2]
  | .FloorMod a b => by
    have ha := timutSound w a
    have hb := timutSound w b
    simp [timut, noVarNamed, yCollapsed, ha.1, ha.2, hb.1, hb.2]
  | .ProducerLoad t ix => by
    have h := timutSoundList w ix
    simp [timut, noVarNamed, yCollapsed, h.1, h.2]
  | .Call d o args => by
    have h := timutSoundList w args
    simp [timut, noVarNamed, yCollapsed, h.1, h.2]
  | .Reduce rs ss => by
    have h1 := timutSoundList w rs
    have h2 := timutSoundList w ss
    simp [timut, noVarNamed, yCollapsed, h1.1, h1.2, h2.1, h2.2]

theorem timutSoundList (w : Int) : (l : List PrimExpr) →
    noVarNamedList "threadIdx.x" (timutList (.IntImm .i32 w) l) = true ∧
    yCollapsedList (.IntImm .i32 w) (timutList (.IntImm .i32 w) l) = true
  | [] => ⟨rfl, rfl⟩
  | e :: r => by
    have h1 := timutSound w e
    have h2 := timutSoundList w r
    simp [timutList, noVarNamedList, yCollapsedList, h1.1, h1.2, h2.1, h2.2]

end

/-- Claim C6 (amended): every expression actually passed through
`ThreadIdxMutator` (the source and destination address operands of the
load/store intrinsics) contains no `threadIdx.x` after the rewrite, and
every remaining `threadIdx.y` occurs only in the collapsed form
`(threadIdx.y / w) * w`. -/
theorem c6_thread_collapse_amended (w : Int) (e : PrimExpr) :
    noVarNamed "threadIdx.x" (timut (.IntImm .i32 w) e) = true ∧
    yCollapsed (.IntImm .i32 w) (timut (.IntImm .i32 w) e) = true :=
  timutSound w e

/-- Claim C7: a for-loop whose induction variable has scaling factor `f`
and whose extent is the constant `E` is rewritten with extent `E / f`
(C++ truncating integer division), preserving min, kind, thread binding,
annotations, the extent's dtype, and the mutated body.  The positivity
proviso delimits the domain on which `Int.tdiv` agrees with the C++
division (a zero factor would divide by zero in the source). -/
theorem c7_for_rewrite (cfg : MutCfg) (bnd : BndMap) (v : Nat) (vn : String) (mn : PrimExpr)
    (dt : DType) (e : Int) (kind : Nat) (tb : Option Nat) (ann : Nat) (body : Stmt) (f : Int)
    (hf : lookupT cfg.loopScaling v = some f) (hfpos : 0 < f) :
    mutate cfg bnd (.For v vn mn (.IntImm dt e) kind tb ann body) =
      (mutate cfg bnd body).map
        (fun p => (.For v vn mn (.IntImm dt (Int.tdiv e f)) kind tb ann p.1, p.2)) := by
  cases hm : mutate cfg bnd body with
  | none => simp [mutate, hm]
  | some p => simp [mutate, hm, hf, exprDType]

/-- Claim C7 witness: a loop over variable 5 with extent 32 and factor 16
is rewritten to extent 2. -/
theorem c7_for_rewrite_witness :
    mutate mutWCfg ([] : BndMap)
      (.For 5 "i" (.IntImm .i32 0) (.IntImm .i32 32) 0 none 0 (.Evaluate (.IntImm .i32 0))) =
    some (.For 5 "i" (.IntImm .i32 0) (.IntImm .i32 2) 0 none 0
      (.Evaluate (.IntImm .i32 0)), ([] : BndMap)) := by
  have h := c7_for_rewrite mutWCfg ([] : BndMap) 5 "i" (.IntImm .i32 0) .i32 32 0 none 0
    (.Evaluate (.IntImm .i32 0)) 16 rfl (by decide)
  rw [h]
  rfl

/-- Claim C10: a for-loop whose induction variable has a scaling factor but
whose extent is not a constant integer is rewritten with the constant
extent 1 (of the original extent's dtype), discarding the symbolic
extent. -/
theorem c10_for_rewrite_nonconst (cfg : MutCfg) (bnd : BndMap) (v : Nat) (vn : String)
    (mn ext : PrimExpr) (kind : Nat) (tb : Option Nat) (ann : Nat) (body : Stmt) (f : Int)
    (hf : lookupT cfg.loopScaling v = some f)
    (hne : ∀ (d : DType) (e : Int), ext ≠ .IntImm d e) :
    mutate cfg bnd (.For v vn mn ext kind tb ann body) =
      (mutate cfg bnd body).map
        (fun p => (.For v vn mn (.IntImm (exprDType ext) 1) kind tb ann p.1, p.2)) := by
  cases hm : mutate cfg bnd body with
  | none => simp [mutate, hm]
  | some p =>
    cases ext with
    | IntImm d e => exact absurd rfl (hne d e)
    | FloatImm d e => simp [mutate, hm, hf]
    | StringImm s => simp [mutate, hm, hf]
    | Var i n d => simp [mutate, hm, hf]
    | Cast d e => simp [mutate, hm, hf]
    | Add a b => simp [mutate, hm, hf]
    | Sub a b => simp [mutate, hm, hf]
    | Mul a b => simp [mutate, hm, hf]
    | Div a b => simp [mutate, hm, hf]
    | FloorMod a b => simp [mutate, hm, hf]
    | ProducerLoad t ix => simp [mutate, hm, hf]
    | Call d o args => simp [mutate, hm, hf]
    | Reduce rs ss => simp [mutate, hm, hf]

/-- Claim C10 witness: a loop with symbolic extent `n` and factor 16 is
rewritten to the constant extent 1. -/
theorem c10_for_rewrite_nonconst_witness :
    mutate mutWCfg ([] : BndMap)
      (.For 5 "i" (.IntImm .i32 0) (.Var 6 "n" .i32) 0 none 0 (.Evaluate (.IntImm .i32 0))) =
    some (.For 5 "i" (.IntImm .i32 0) (.IntImm .i32 1) 0 none 0
      (.Evaluate (.IntImm .i32 0)), ([] : BndMap)) := by
  have h := c10_for_rewrite_nonconst mutWCfg ([] : BndMap) 5 "i" (.IntImm .i32 0)
    (.Var 6 "n" .i32) 0 none 0 (.Evaluate (.IntImm .i32 0)) 16 rfl
    (fun d e he => nomatch he)
  rw [h]
  rfl

/-- Claim C2: in a valid state with recorded extents `t_x` and `t_y`, the
qualification computes `warp_threads_y = 32 / t_x`, requires
`t_y >= warp_threads_y` and `t_y mod warp_threads_y = 0`, sets the warp
tile to `(t_x * m, warp_threads_y * n, k)`, and succeeds exactly when that
tile is one of the five supported geometries; when it fails, the driver
tail returns the input statement unchanged.  The bounds on `t_x` delimit
the domain where `Int.tdiv`/`Int.tmod` agree with the C++ operators (a
nonpositive or over-32 extent divides or takes a remainder by a
nonpositive count in the source, which is undefined behaviour). -/
theorem c2_qualification (st : BAState) (tx ty : Int)
    (hinv : st.invalid = false)
    (hx : lookupT st.threadExtent "threadIdx.x" = some tx)
    (hy : lookupT st.threadExtent "threadIdx.y" = some ty)
    (htx0 : 0 < tx) (htx32 : tx ≤ 32) :
    ((qualify st).2 = true ↔
      (Int.tdiv 32 tx ≤ ty ∧ Int.tmod ty (Int.tdiv 32 tx) = 0 ∧
        (((tx * st.threadTile.m, Int.tdiv 32 tx * st.threadTile.n, st.threadTile.k) :
            Int × Int × Int) = (16, 16, 16) ∨
         ((tx * st.threadTile.m, Int.tdiv 32 tx * st.threadTile.n, st.threadTile.k) :
            Int × Int × Int) = (8, 32, 16) ∨
         ((tx * st.threadTile.m, Int.tdiv 32 tx * st.threadTile.n, st.threadTile.k) :
            Int × Int × Int) = (32, 8, 16) ∨
         ((tx * st.threadTile.m, Int.tdiv 32 tx * st.threadTile.n, st.threadTile.k) :
            Int × Int × Int) = (8, 8, 32) ∨
         ((tx * st.threadTile.m, Int.tdiv 32 tx * st.threadTile.n, st.threadTile.k) :
            Int × Int × Int) = (8, 8, 128)))) ∧
    ((qualify st).2 = false →
      ∀ (maps : RoleMaps) (recs : List MRec) (fragReg : List String) (s : Stmt),
        stage4 maps recs fragReg st s = some s) := by
  constructor
  · simp only [qualify, hinv, hx, hy, Bool.false_eq_true, if_false]
    by_cases hlt : ty < Int.tdiv 32 tx
    · simp only [hlt, hy]
      simp only [decide_True, Bool.true_or, if_true, Bool.false_eq_true, false_iff]
      intro hcon
      omega
    · by_cases hmod : Int.tmod ty (Int.tdiv 32 tx) = 0
      · have hle : Int.tdiv 32 tx ≤ ty := by omega
        simp only [hlt, hmod, hle, supportedWarpTile, Prod.mk.injEq, decide_True,
          not_false_eq_true, true_and, and_true]
        simp [hlt, hmod, hle, supportedWarpTile, Prod.mk.injEq]
        tauto
      · simp [hlt, hmod]
  · intro hq maps recs fragReg s
    unfold stage4
    cases hqq : qualify st with
    | mk ba2 q =>
      rw [hqq] at hq
      simp only at hq
      simp [hq]

/-- Claim C2 witness: extents 16 x 2 with thread tile (1, 8, 16) qualify,
with warp tile (16, 16, 16). -/
theorem c2_qualification_witness : (qualify c2WState).2 = true := by
  have h := c2_qualification c2WState 16 2 rfl rfl rfl (by decide) (by decide)
  exact h.1.mpr (by decide)

/-- Claim C3: with `r` the reduction axis variable and `x`, `y` the
second-to-last and last spatial axis variables (all distinct), the role
classification of a recorded argument list ending in `(i, j)` follows the
table `(r, y) -> matrix_a/col_major`, `(r, x) -> matrix_b/row_major`,
`(y, r) -> matrix_a/row_major`, `(x, r) -> matrix_b/col_major`; and a
processed output stage registers its own name as accumulator/col_major
(whenever that name was not already classified). -/
theorem c3_role_table (rv x0 x1 : Nat) (p : List PrimExpr) (n1 n2 : String) (d1 d2 : DType)
    (h01 : rv ≠ x0) (h02 : rv ≠ x1) (h12 : x0 ≠ x1) :
    roleOf rv x0 x1 (p ++ [.Var rv n1 d1, .Var x1 n2 d2]) = some ("matrix_a", "col_major") ∧
    roleOf rv x0 x1 (p ++ [.Var rv n1 d1, .Var x0 n2 d2]) = some ("matrix_b", "row_major") ∧
    roleOf rv x0 x1 (p ++ [.Var x1 n1 d1, .Var rv n2 d2]) = some ("matrix_a", "row_major") ∧
    roleOf rv x0 x1 (p ++ [.Var x0 n1 d1, .Var rv n2 d2]) = some ("matrix_b", "col_major") ∧
    (∀ (c : ComputeOp) (maps : RoleMaps) (ax0 ax1 rax : IterV),
      c.axis.get? (c.axis.length - 2) = some ax0 →
      c.axis.get? (c.axis.length - 1) = some ax1 →
      c.reduceAxis.get? 0 = some rax →
      2 ≤ c.axis.length → c.reduceAxis.length = 1 →
      (c.body.foldl bodyVisit ⟨[], false⟩).candidate = true →
      lookupT (stageArgsFold rax.varId ax0.varId ax1.varId maps
        (c.body.foldl bodyVisit ⟨[], false⟩).args).abc c.name = none →
      lookupT (stageArgsFold rax.varId ax0.varId ax1.varId maps
        (c.body.foldl bodyVisit ⟨[], false⟩).args).major c.name = none →
      lookupT (stageRoles maps (.compute c)).abc c.name = some "accumulator" ∧
      lookupT (stageRoles maps (.compute c)).major c.name = some "col_major") := by
  have hlen : ∀ (a b : PrimExpr),
      (p ++ [a, b]).get? ((p ++ [a, b]).length - 2) = some a ∧
      (p ++ [a, b]).get? ((p ++ [a, b]).length - 1) = some b := by
    intro a b
    constructor
    · rw [List.length_append, show p.length + [a, b].length - 2 = p.length + 0 by simp,
        List.get?_append_right (by omega)]
      simp
    · rw [List.length_append, show p.length + [a, b].length - 1 = p.length + 1 by simp,
        List.get?_append_right (by omega)]
      simp
  have hnlen : ∀ (a b : PrimExpr), ¬ ((p ++ [a, b]).length < 2) := by
    intro a b
    simp [List.length_append]
  refine ⟨?_, ?_, ?_, ?_, ?_⟩
  · have h := hlen (.Var rv n1 d1) (.Var x1 n2 d2)
    simp only [roleOf, hnlen, if_false, h.1, h.2]
    simp
  · have h := hlen (.Var rv n1 d1) (.Var x0 n2 d2)
    simp only [roleOf, hnlen, if_false, h.1, h.2]
    simp [h12]
  · have h := hlen (.Var x1 n1 d1) (.Var rv n2 d2)
    simp only [roleOf, hnlen, if_false, h.1, h.2]
    simp [Ne.symm h02]
  · have h := hlen (.Var x0 n1 d1) (.Var rv n2 d2)
    simp only [roleOf, hnlen, if_false, h.1, h.2]
    simp [Ne.symm h01, Ne.symm h12, h12]
  · intro c maps ax0 ax1 rax hg0 hg1 hgr hal hrl hcand habc hmaj
    have hguard : (c.axis.length < 2 || c.reduceAxis.length ≠ 1) = false := by
      simp [Nat.not_lt.mpr hal, hrl]
    simp only [stageRoles]
    rw [hguard]
    simp only [Bool.false_eq_true, if_false]
    rw [hg0, hg1, hgr]
    simp only [hcand, Bool.not_true, Bool.false_eq_true, if_false]
    constructor
    · show lookupT (insKeep _ c.name "accumulator") c.name = _
      unfold insKeep
      rw [habc]
      simp only [Option.isSome_none, Bool.false_eq_true, if_false]
      exact lookupT_append_none _ _ _ habc
    · show lookupT (insKeep _ c.name "col_major") c.name = _
      unfold insKeep
      rw [hmaj]
      simp only [Option.isSome_none, Bool.false_eq_true, if_false]
      exact lookupT_append_none _ _ _ hmaj

/-- Claim C3 witness: with reduction variable 0 and spatial variables 1, 2,
the index pair `(r, y)` classifies as matrix_a / col_major. -/
theorem c3_role_table_witness :
    roleOf 0 1 2 [.Var 0 "r" .i32, .Var 2 "y" .i32] = some ("matrix_a", "col_major") :=
  (c3_role_table 0 1 2 [] "r" "y" .i32 .i32 (by decide) (by decide) (by decide)).1

/-- Claim C8 (counterexample): in `c8Stmt` the MMA store is a sequence
sibling of the `pragma_tensor_core` attribute, not lexically nested under
it, yet the matcher records and matches it: the `tensor_core_on_` flag is
set by the pragma and never cleared. -/
theorem c8_store_outside_pragma_matched :
    storeUnderPragma c8Stmt 1 = false ∧
    (runMatcher (matcherInit []) c8Stmt).map
      (fun st => (st.matched, st.mmaSync.map MRec.sid)) = some (true, [1]) :=
  ⟨rfl, rfl⟩

/-- Claim C8 (amended): matching is activated by the first
`pragma_tensor_core` attribute encountered in traversal order and stays
active for the rest of the walk; in particular, over any statement
containing no such attribute, a matcher whose flag is off matches nothing
and leaves all match tables unchanged. -/
theorem c8_matcher_inactive_without_pragma (s : Stmt) (st : MState)
    (hs : noPragma s = true) (ht : st.tcOn = false) :
    ∀ st', runMatcher st s = some st' →
      st'.matched = st.matched ∧ st'.mmaSync = st.mmaSync ∧ st'.fragReg = st.fragReg ∧
      st'.bufName = st.bufName ∧ st'.tcOn = false := by
  induction s generalizing st with
  | AttrStmt node key value body ih =>
    intro st' h
    simp only [noPragma, Bool.and_eq_true, decide_eq_true_eq] at hs
    simp only [runMatcher] at h
    rw [if_neg hs.1] at h
    by_cases hr : key = "realize_scope"
    · rw [if_pos hr] at h
      cases value with
      | StringImm sv =>
        cases hk : AttrObj.key node with
        | some k =>
          rw [hk] at h
          exact ih { st with storageScope := setT st.storageScope k sv } hs.2 ht st' h
        | none =>
          rw [hk] at h
          exact ih st hs.2 ht st' h
      | IntImm d v => cases h
      | FloatImm d v => cases h
      | Var i n d => cases h
      | Cast d e => cases h
      | Add a b => cases h
      | Sub a b => cases h
      | Mul a b => cases h
      | Div a b => cases h
      | FloorMod a b => cases h
      | ProducerLoad t ix => cases h
      | Call d o args => cases h
      | Reduce rs ss => cases h
    · rw [if_neg hr] at h
      exact ih _ hs.2 ht st' h
  | ProducerRealize t bounds cond body ih =>
    intro st' h
    simp only [noPragma] at hs
    simp only [runMatcher] at h
    cases hl : lookupT st.bufMap t with
    | some bi =>
      rw [hl] at h
      by_cases he : bi.external
      · simp only [he, Bool.not_true, Bool.false_eq_true, if_false] at h
        exact ih _ hs ht st' h
      · simp only [Bool.not_eq_true'] at he
        simp only [he, Bool.not_false, if_true] at h
        injection h with h1
        subst h1
        exact ⟨rfl, rfl, rfl, rfl, ht⟩
    | none =>
      rw [hl] at h
      cases hrm : runMatcher { st with bufMap := setT st.bufMap t ⟨t.name, t.dtype, false, false⟩ }
          body with
      | none => rw [hrm] at h; cases h
      | some st2 =>
        rw [hrm] at h
        injection h with h1
        subst h1
        have h2 := ih { st with bufMap := setT st.bufMap t ⟨t.name, t.dtype, false, false⟩ } hs ht st2 hrm
        exact ⟨h2.1, h2.2.1, h2.2.2.1, h2.2.2.2.1, h2.2.2.2.2⟩
  | ProducerStore sid t value indices =>
    intro st' h
    simp only [runMatcher] at h
    cases hl : lookupT st.bufMap t with
    | none =>
      rw [hl] at h
      injection h with h1
      subst h1
      exact ⟨rfl, rfl, rfl, rfl, ht⟩
    | some bi =>
      rw [hl] at h
      by_cases hb : bi.released
      · simp only [hb, if_true] at h
        injection h with h1
        subst h1
        exact ⟨rfl, rfl, rfl, rfl, ht⟩
      · simp only [hb, Bool.false_eq_true, if_false, ht] at h
        injection h with h1
        subst h1
        exact ⟨rfl, rfl, rfl, rfl, ht⟩
  | For v vn mn ext kind tb ann body ih =>
    intro st' h
    simp only [noPragma] at hs
    simp only [runMatcher] at h
    exact ih _ hs ht st' h
  | Seq a b iha ihb =>
    intro st' h
    simp only [noPragma, Bool.and_eq_true] at hs
    simp only [runMatcher] at h
    cases hra : runMatcher st a with
    | none => rw [hra] at h; cases h
    | some st1 =>
      rw [hra] at h
      have h1 := iha _ hs.1 ht st1 hra
      have h2 := ihb _ hs.2 h1.2.2.2.2 st' h
      refine ⟨h2.1.trans h1.1, h2.2.1.trans h1.2.1, h2.2.2.1.trans h1.2.2.1,
        h2.2.2.2.1.trans h1.2.2.2.1, h2.2.2.2.2⟩
  | Evaluate e =>
    intro st' h
    simp only [runMatcher] at h
    injection h with h1
    subst h1
    exact ⟨rfl, rfl, rfl, rfl, ht⟩

/-- Claim C8 (amended) witness: over the pragma-free `c8WStmt` the matcher
matches nothing. -/
theorem c8_matcher_inactive_witness :
    (runMatcher (matcherInit []) c8WStmt).map MState.matched = some false := by
  have hs : (runMatcher (matcherInit []) c8WStmt).isSome = true := rfl
  obtain ⟨st', hr⟩ := Option.isSome_iff_exists.mp hs
  have h := (c8_matcher_inactive_without_pragma c8WStmt (matcherInit []) rfl rfl st' hr).1
  rw [hr, Option.map_some', h]
  rfl

theorem mmaStep_inv (st : MState) (sid : Nat) (v : PrimExpr) (bi : MBufInfo) (st' : MState)
    (h : MInv st) (hstep : mmaSyncMatchStep st sid v bi = some st') : MInv st' := by
  unfold mmaSyncMatchStep at hstep
  repeat' split at hstep
  all_goals
    first
      | exact Option.noConfusion hstep
      | (simp only [Option.some.injEq] at hstep
         subst hstep
         first
           | assumption
           | (refine ⟨fun _ => insKeepRec_ne_nil _ _, fun r hr => ?_⟩
              rcases mem_insKeepRec _ _ r hr with hm | he
              · exact h.2 r hm
              · subst he
                rfl))

theorem matcher_inv (s : Stmt) (st : MState) (h : MInv st) :
    ∀ st', runMatcher st s = some st' → MInv st' := by
  induction s generalizing st with
  | AttrStmt node key value body ih =>
    intro st' hr
    simp only [runMatcher] at hr
    by_cases hp : key = "pragma_tensor_core"
    · rw [if_pos hp] at hr
      exact ih { st with tcOn := true } h st' hr
    · rw [if_neg hp] at hr
      by_cases hrs : key = "realize_scope"
      · rw [if_pos hrs] at hr
        cases value with
        | StringImm sv =>
          cases hk : AttrObj.key node with
          | some k =>
            rw [hk] at hr
            exact ih { st with storageScope := setT st.storageScope k sv } h st' hr
          | none =>
            rw [hk] at hr
            exact ih st h st' hr
        | IntImm d vv => cases hr
        | FloatImm d vv => cases hr
        | Var i n d => cases hr
        | Cast d e => cases hr
        | Add a b => cases hr
        | Sub a b => cases hr
        | Mul a b => cases hr
        | Div a b => cases hr
        | FloorMod a b => cases hr
        | ProducerLoad t ix => cases hr
        | Call d o args => cases hr
        | Reduce rs ss => cases hr
      · rw [if_neg hrs] at hr
        exact ih st h st' hr
  | ProducerRealize t bounds cond body ih =>
    intro st' hr
    simp only [runMatcher] at hr
    cases hl : lookupT st.bufMap t with
    | some bi =>
      rw [hl] at hr
      by_cases he : bi.external
      · simp only [he, Bool.not_true, Bool.false_eq_true, if_false] at hr
        exact ih st h st' hr
      · simp only [Bool.not_eq_true'] at he
        simp only [he, Bool.not_false, if_true] at hr
        injection hr with h1
        subst h1
        exact h
    | none =>
      rw [hl] at hr
      cases hrm : runMatcher { st with bufMap := setT st.bufMap t ⟨t.name, t.dtype, false, false⟩ }
          body with
      | none => rw [hrm] at hr; cases hr
      | some st2 =>
        rw [hrm] at hr
        injection hr with h1
        subst h1
        have h2 := ih { st with bufMap := setT st.bufMap t ⟨t.name, t.dtype, false, false⟩ }
          h st2 hrm
        exact h2
  | ProducerStore sid t value indices =>
    intro st' hr
    simp only [runMatcher] at hr
    cases hl : lookupT st.bufMap t with
    | none =>
      rw [hl] at hr
      injection hr with h1
      subst h1
      exact h
    | some bi =>
      rw [hl] at hr
      by_cases hb : bi.released
      · simp only [hb, if_true] at hr
        injection hr with h1
        subst h1
        exact h
      · simp only [hb, Bool.false_eq_true, if_false] at hr
        by_cases htc : st.tcOn
        · rw [if_pos htc] at hr
          exact mmaStep_inv st sid value bi st' h hr
        · rw [if_neg htc] at hr
          injection hr with h1
          subst h1
          exact h
  | For v vn mn ext kind tb ann body ih =>
    intro st' hr
    simp only [runMatcher] at hr
    exact ih st h st' hr
  | Seq a b iha ihb =>
    intro st' hr
    simp only [runMatcher] at hr
    cases hra : runMatcher st a with
    | none => rw [hra] at hr; cases hr
    | some st1 =>
      rw [hra] at hr
      exact ihb st1 (iha st h st1 hra) st' hr
  | Evaluate e =>
    intro st' hr
    simp only [runMatcher] at hr
    injection hr with h1
    subst h1
    exact h

theorem consistency_none (abc : List (String × String)) (bufName : List (PrimExpr × String))
    (r : MRec) (rest : List MRec) (h : exprAsCall r.a = none) :
    consistencyPass abc bufName (r :: rest) = none := by
  unfold consistencyPass
  rw [h]

theorem matcherInit_inv (ext : List (Tensor × ExtBuffer)) : MInv (matcherInit ext) := by
  constructor
  · intro hc
    exact absurd hc (by simp [matcherInit])
  · intro r hr
    exact absurd hr (by simp [matcherInit])

/-- The pass never produces anything but its input statement: whenever the
matcher matches, the matrix-identification stage immediately runs into the
undefined iterator dereference (its records hold producer loads, never
calls), so every defined outcome of the driver is the unchanged input. -/
theorem pass_returns_input (inp : PassInput) : ∀ out, SchedulePostProcRewriteForTensorCore inp = some out → out = inp.stmt := by
  intro out h
  unfold SchedulePostProcRewriteForTensorCore at h
  split at h
  · injection h with h1
    exact h1.symm
  · split at h
    · injection h with h1
      exact h1.symm
    · cases hrm : runMatcher (matcherInit inp.externBuffer) inp.stmt with
      | none => rw [hrm] at h; cases h
      | some m =>
        simp only [hrm] at h
        by_cases hm : m.matched
        · have hinv := matcher_inv inp.stmt (matcherInit inp.externBuffer)
            (matcherInit_inv inp.externBuffer) m hrm
          cases hms : m.mmaSync with
          | nil => exact absurd hms (hinv.1 hm)
          | cons r rest =>
            have hca : exprAsCall r.a = none := hinv.2 r (hms ▸ List.mem_cons_self r rest)
            have hcp := consistency_none (rolePhase inp.schedule).abc m.bufName r rest hca
            have hmi : matrixIdentify m inp.schedule = none := by
              simp only [matrixIdentify]
              rw [hms, hcp]
            rw [hm] at h
            simp only [Bool.not_true, Bool.false_eq_true, if_false] at h
            rw [hmi] at h
            cases h
        · simp only [Bool.not_eq_true] at hm
          rw [hm] at h
          simp only [Bool.not_false, if_true] at h
          injection h with h1
          exact h1.symm

/-- Claim C9: the pass is idempotent — applying it to its own output (with
the schedule, extern buffers, target and device context fixed) returns
that output. -/
theorem c9_idempotent (inp : PassInput) (out : Stmt) (h : SchedulePostProcRewriteForTensorCore inp = some out) :
    SchedulePostProcRewriteForTensorCore { inp with stmt := out } = some out := by
  have heq := pass_returns_input inp out h
  subst heq
  exact h

/-- Claim C9 witness: on a non-CUDA target the pass returns its input, and
re-applying it to that output returns the same statement. -/
theorem c9_idempotent_witness : SchedulePostProcRewriteForTensorCore c9WInput = some (.Evaluate (.IntImm .i32 0)) :=
  c9_idempotent c9WInput (.Evaluate (.IntImm .i32 0)) rfl
